import Mathlib

/-!
# Verification of the Micro-Mango generation queue and streaming provider engine

This development gives a shallow embedding of the queue store
(`src/stores/queueStore.ts`), the retry/backoff policy and the three
provider adapters (`src/services/api/providers/*`, the rich-streaming
Google adapter with its internal retry loop), the SSE streaming parser,
and the work-queue orchestrator (`App.tsx` / `processQueue`), and proves
or refutes the specification claims about them.

Conventions of the embedding:

* JavaScript numbers are modelled as `Nat` (counters, timestamps, HTTP
  statuses) or `ℚ` (millisecond durations computed with `Math.pow` /
  `Math.min`; on every value reachable by the retry policy the double
  computation is exact, so exact rationals coincide with the source).
* Chunk text handed to the SSE parser is modelled as `List Char`: the
  platform `TextDecoder` (with `stream: true`) reassembles split UTF-8
  sequences, so the parser proper operates on decoded text.
* The platform primitives `fetch`, `JSON.parse` and `response.json()`
  are modelled by their observable outcomes: a network attempt yields a
  `FetchOutcome`, and the `JSON.parse`-plus-`candidates[0].content.parts`
  navigation performed on one `data:` payload is a parameter
  `decode : List Char → List GenerationPart` (returning `[]` both for
  malformed JSON, which the source silently skips, and for a record
  without parts, which the source turns into `[]` via `|| []`).
* Asynchronous control flow is sequentialised: one provider invocation
  is a function from the sequence of network outcomes to the sequence of
  callback events it fires (plus the `sleep` delays it takes), and the
  orchestrator is a small-step transition relation whose events are the
  store operations triggered by user actions and adapter callbacks.
-/

/-! ## Queue store data model (`src/stores/queueStore.ts`) -/

/-- `QueueItemStatus` from `queueStore.ts`:
`'pending' | 'generating' | 'completed' | 'error'`. -/
inductive QueueItemStatus where
  | pending
  | generating
  | completed
  | error
deriving DecidableEq, Repr

/-- `QueueItem` from `queueStore.ts`.  `id` (a `crypto.randomUUID()`
string in the source) is modelled as `Nat`; optional fields are
`Option`s (`none` = `undefined`). -/
structure QueueItem where
  id : Nat
  prompt : String
  referenceImages : Option (List String) := none
  resolution : String
  aspectRatio : String
  model : String
  provider : String
  status : QueueItemStatus
  progress : Option Nat := none
  statusMessage : Option String := none
  thoughtTexts : Option (List String) := none
  interimImages : Option (List String) := none
  finalImage : Option String := none
  finalImages : Option (List String) := none
  error : Option String := none
  createdAt : Nat
  startedAt : Option Nat := none
  completedAt : Option Nat := none
  elapsedTime : Option Nat := none
deriving DecidableEq, Repr

/-- `QueueState` from `queueStore.ts`: the ordered item collection and
the id of the item currently being processed. -/
structure QueueState where
  items : List QueueItem
  currentItemId : Option Nat
deriving DecidableEq, Repr

/-- The argument of `addItem`
(`Omit<QueueItem, 'id' | 'status' | 'createdAt'>` as actually supplied
by `handleSubmit` / `rerunItem`: the six request fields). -/
structure ItemData where
  prompt : String
  referenceImages : Option (List String)
  resolution : String
  aspectRatio : String
  model : String
  provider : String
deriving DecidableEq, Repr

/-- `addItem`: appends a fresh item in `pending` status with
`createdAt := Date.now()`.  The fresh uuid and the clock reading are
explicit parameters. -/
def addItem (data : ItemData) (id : Nat) (now : Nat) (s : QueueState) : QueueState :=
  { s with items := s.items ++ [{
      id := id
      prompt := data.prompt
      referenceImages := data.referenceImages
      resolution := data.resolution
      aspectRatio := data.aspectRatio
      model := data.model
      provider := data.provider
      status := QueueItemStatus.pending
      createdAt := now }] }

/-- `removeItem`: filters the item out and clears `currentItemId` when
it pointed at the removed item. -/
def removeItem (id : Nat) (s : QueueState) : QueueState :=
  { items := s.items.filter (fun item => item.id ≠ id)
    currentItemId := if s.currentItemId = some id then none else s.currentItemId }

/-- `clearCompleted`: drops every `completed` or `error` item. -/
def clearCompleted (s : QueueState) : QueueState :=
  { s with items := s.items.filter (fun item =>
      item.status ≠ QueueItemStatus.completed ∧ item.status ≠ QueueItemStatus.error) }

/-- `clearAll`: empties the queue and clears `currentItemId`. -/
def clearAll (_s : QueueState) : QueueState :=
  { items := [], currentItemId := none }

/-- The per-item update pattern every store action uses:
`items.map(item => item.id === id ? { ...item, ... } : item)`. -/
def updateById (id : Nat) (g : QueueItem → QueueItem) (items : List QueueItem) :
    List QueueItem :=
  items.map (fun item => if item.id = id then g item else item)

/-- `startProcessing`: sets `currentItemId`, marks the item
`generating`, zeroes progress, sets the preparing message, records
`startedAt := Date.now()` and resets the transient `thoughtTexts` /
`interimImages` lists. -/
def startProcessing (id : Nat) (now : Nat) (s : QueueState) : QueueState :=
  { currentItemId := some id
    items := updateById id (fun item =>
      { item with
        status := QueueItemStatus.generating
        progress := some 0
        statusMessage := some "요청 준비 중..."
        startedAt := some now
        thoughtTexts := some []
        interimImages := some [] }) s.items }

/-- `updateProgress`. -/
def updateProgress (id : Nat) (progress : Nat) (s : QueueState) : QueueState :=
  { s with items := updateById id (fun item => { item with progress := some progress }) s.items }

/-- `setStatusMessage`. -/
def setStatusMessage (id : Nat) (message : String) (s : QueueState) : QueueState :=
  { s with items := updateById id (fun item => { item with statusMessage := some message }) s.items }

/-- `addThoughtText`: appends to `thoughtTexts` (treating `undefined`
as `[]`, as the source's `...(item.thoughtTexts || [])` does). -/
def addThoughtText (id : Nat) (text : String) (s : QueueState) : QueueState :=
  { s with items := updateById id (fun item =>
      { item with thoughtTexts := some ((item.thoughtTexts.getD []) ++ [text]) }) s.items }

/-- JavaScript `arr.slice(-2)`: the at most two last elements. -/
def sliceLast2 (l : List String) : List String :=
  l.drop (l.length - 2)

/-- `addInterimImage`: appends and keeps the most recent two
(`[...(item?.interimImages || []), image].slice(-2)`). -/
def addInterimImage (id : Nat) (image : String) (s : QueueState) : QueueState :=
  { s with items := updateById id (fun item =>
      { item with interimImages := some (sliceLast2 ((item.interimImages.getD []) ++ [image])) }) s.items }

/-- `completeItem`: marks the item `completed`, stores the final image
and elapsed time, stamps `completedAt := Date.now()` and clears
`currentItemId`. -/
def completeItem (id : Nat) (finalImage : String) (elapsedTime : Nat) (now : Nat)
    (s : QueueState) : QueueState :=
  { currentItemId := none
    items := updateById id (fun item =>
      { item with
        status := QueueItemStatus.completed
        finalImage := some finalImage
        elapsedTime := some elapsedTime
        completedAt := some now }) s.items }

/-- `failItem`: marks the item `error`, stores the message, stamps
`completedAt` and clears `currentItemId`. -/
def failItem (id : Nat) (error : String) (now : Nat) (s : QueueState) : QueueState :=
  { currentItemId := none
    items := updateById id (fun item =>
      { item with
        status := QueueItemStatus.error
        error := some error
        completedAt := some now }) s.items }

/-- `getNextPending`: `items.find(item => item.status === 'pending')` —
the oldest pending item, since `addItem` appends. -/
def getNextPending (s : QueueState) : Option QueueItem :=
  s.items.find? (fun item => item.status = QueueItemStatus.pending)

/-- The `partialize` projection of the persist middleware: every large
payload field is persisted as `undefined` and `currentItemId` as
`null`. -/
def partializeItem (item : QueueItem) : QueueItem :=
  { item with
    referenceImages := none
    finalImage := none
    finalImages := none
    interimImages := none
    thoughtTexts := none }

/-- `partialize` on the whole state. -/
def partializeState (s : QueueState) : QueueState :=
  { items := s.items.map partializeItem
    currentItemId := none }

/-- The `onRehydrateStorage` fixup on one item: a persisted
`generating` item is demoted to `pending` with `progress`,
`statusMessage` and `startedAt` cleared; all other items are returned
unchanged. -/
def rehydrateItem (item : QueueItem) : QueueItem :=
  if item.status = QueueItemStatus.generating then
    { item with
      status := QueueItemStatus.pending
      progress := none
      statusMessage := none
      startedAt := none }
  else item

/-- `onRehydrateStorage` on the whole persisted state. -/
def rehydrateState (s : QueueState) : QueueState :=
  { s with items := s.items.map rehydrateItem }

/-! ## Retry/backoff policy (`providers/google.ts`, lines 4–48) -/

/-- `INITIAL_RETRY_INTERVAL_MS = 60 * 1000` (1 minute). -/
def INITIAL_RETRY_INTERVAL_MS : ℚ := 60 * 1000

/-- `BACKOFF_THRESHOLD = 10`. -/
def BACKOFF_THRESHOLD : Nat := 10

/-- `BACKOFF_MULTIPLIER = 1.5`. -/
def BACKOFF_MULTIPLIER : ℚ := 1.5

/-- `MAX_RETRY_INTERVAL_MS = 24 * 60 * 60 * 1000` (24 hours). -/
def MAX_RETRY_INTERVAL_MS : ℚ := 24 * 60 * 60 * 1000

/-- `MAX_RETRIES = 100`. -/
def MAX_RETRIES : Nat := 100

/-- `getRetryInterval(consecutiveSameErrors)`: fixed interval up to the
threshold, then `INITIAL * MULTIPLIER ^ (n - threshold)` capped by
`Math.min` at the 24-hour ceiling.  A pure function of the counter; the
JavaScript double computation is exact on all values below the cap, and
above the cap the `Math.min` makes any rounding unobservable. -/
def getRetryInterval (consecutiveSameErrors : Nat) : ℚ :=
  if consecutiveSameErrors ≤ BACKOFF_THRESHOLD then
    INITIAL_RETRY_INTERVAL_MS
  else
    min (INITIAL_RETRY_INTERVAL_MS * BACKOFF_MULTIPLIER ^ (consecutiveSameErrors - BACKOFF_THRESHOLD))
      MAX_RETRY_INTERVAL_MS

/-- A JavaScript error value as far as `isRetryableError` inspects it:
the `instanceof TypeError` / `instanceof DOMException` /
`instanceof Error` tests, the `name` and the `message`. -/
structure JsError where
  isTypeError : Bool
  isDomException : Bool
  isError : Bool
  name : String
  message : String
deriving DecidableEq, Repr

/-- JavaScript `string.includes(pattern)` on decoded characters. -/
def charsContains (pat : List Char) : List Char → Bool
  | [] => pat.isEmpty
  | c :: rest => pat.isPrefixOf (c :: rest) || charsContains pat rest

/-- JavaScript `s.includes(pat)`. -/
def jsIncludes (s pat : String) : Bool :=
  charsContains pat.toList s.toList

/-- `isRetryableError(error, statusCode)` from `providers/google.ts`
(the identical helper also appears in `nanoBanana.ts`): HTTP ≥ 500,
HTTP 429, a `TypeError` mentioning `fetch`, an `AbortError`
`DOMException`, or an `Error` whose lowercased message mentions a
network/timeout/server condition.  The JavaScript truthiness guard
`statusCode && statusCode >= 500` is modelled by requiring the status
to be present and non-zero. -/
def isRetryableError (error : Option JsError) (statusCode : Option Nat) : Bool :=
  if (match statusCode with | some s => decide (s ≠ 0 ∧ 500 ≤ s) | none => false) then true
  else if statusCode = some 429 then true
  else
    match error with
    | none => false
    | some e =>
      if e.isTypeError && jsIncludes e.message "fetch" then true
      else if e.isDomException && e.name == "AbortError" then true
      else if e.isError then
        let msg := e.message.toLower
        jsIncludes msg "network" || jsIncludes msg "timeout" ||
        jsIncludes msg "failed to fetch" || jsIncludes msg "server" ||
        jsIncludes msg "502" || jsIncludes msg "503" || jsIncludes msg "504"
      else false

/-- JavaScript `x.toFixed(1)` for the non-negative rationals produced
by `formatDuration`. -/
def toFixed1 (q : ℚ) : String :=
  s!"{round (q * 10) / 10}.{round (q * 10) % 10}"

/-- `formatDuration(ms)` from `providers/google.ts`: seconds under a
minute, minutes under an hour, otherwise hours with one decimal. -/
def formatDuration (ms : ℚ) : String :=
  if ms < 60 * 1000 then s!"{round (ms / 1000)}초"
  else if ms < 60 * 60 * 1000 then s!"{round (ms / 60 / 1000)}분"
  else toFixed1 (ms / 60 / 60 / 1000) ++ "시간"

/-! ## Streaming SSE parser
(`providers/google.ts` lines 164–221; the identical loop appears in
`nanoBanana.ts` and in the non-retrying `providers/google.ts` variant). -/

/-- One part of a decoded stream record, as navigated by the source:
`part.thought`, `part.text`, `part.inlineData?.data`. -/
structure GenerationPart where
  thought : Bool
  text : Option String
  inlineData : Option String
deriving DecidableEq, Repr

/-- The callback events a provider invocation fires, in order, plus the
`sleep` delays it takes between retry attempts.  `progress` carries the
two arguments of `onProgress`; `thought`, `interim`, `final`, `error`
carry the argument of the respective callback. -/
inductive Ev where
  | progress (percent : Nat) (message : String)
  | thought (text : String)
  | interim (data : String)
  | final (data : String)
  | error (message : String)
  | complete
  | sleep (ms : ℚ)
deriving DecidableEq, Repr

/-- JavaScript string truthiness: an optional string field is acted on
only when present and non-empty. -/
def jsStr (o : Option String) : Option String :=
  match o with
  | some s => if s = "" then none else some s
  | none => none

/-- The mutable locals of one streaming attempt: the trailing-text
`buffer` and the `hasFinalImage` / `thoughtCount` / `interimCount`
counters. -/
structure SSEState where
  buffer : List Char
  hasFinalImage : Bool
  thoughtCount : Nat
  interimCount : Nat
deriving DecidableEq, Repr

/-- The fresh parser state of one attempt (`let buffer = ''` etc.). -/
def initSSE : SSEState :=
  { buffer := [], hasFinalImage := false, thoughtCount := 0, interimCount := 0 }

/-- Handling of one decoded part (lines 191–215 of
`providers/google.ts`): a `thought` part forwards its text and/or its
inline image as `onThoughtText` / `onInterimImage` with derived
progress; a non-`thought` part with inline data is the final
artifact. -/
def handlePart (st : SSEState) (part : GenerationPart) : SSEState × List Ev :=
  if part.thought then
    let r1 :=
      match jsStr part.text with
      | some t =>
        let tc := st.thoughtCount + 1
        ({ st with thoughtCount := tc },
         [Ev.progress (min (20 + tc * 2) 45) s!"AI 사고 중... ({tc})", Ev.thought t])
      | none => (st, ([] : List Ev))
    let r2 :=
      match jsStr part.inlineData with
      | some d =>
        let ic := r1.1.interimCount + 1
        ({ r1.1 with interimCount := ic },
         [Ev.progress (min (50 + ic * 10) 65) s!"중간 이미지 생성 중... ({ic})", Ev.interim d])
      | none => (r1.1, ([] : List Ev))
    (r2.1, r1.2 ++ r2.2)
  else
    match jsStr part.inlineData with
    | some d =>
      ({ st with hasFinalImage := true },
       [Ev.progress 90 "최종 이미지 처리 중...", Ev.final d])
    | none => (st, [])

/-- The event-accumulating fold shared by the `for` loops of the
streaming parser: thread the state, concatenate the emitted events. -/
def foldEvents {σ α : Type} (g : σ → α → σ × List Ev) (st : σ) (xs : List α) :
    σ × List Ev :=
  xs.foldl (fun acc x =>
    let r := g acc.1 x
    (r.1, acc.2 ++ r.2)) (st, [])

/-- Folding `handlePart` over the parts of one record. -/
def handleParts (st : SSEState) (parts : List GenerationPart) : SSEState × List Ev :=
  foldEvents handlePart st parts

/-- JavaScript `String.prototype.trim` on decoded characters. -/
def trimChars (l : List Char) : List Char :=
  ((l.dropWhile Char.isWhitespace).reverse.dropWhile Char.isWhitespace).reverse

/-- Handling of one complete line: only `data: `-prefixed lines are
events; the prefix is stripped and the remainder trimmed; the `[DONE]`
sentinel is skipped; the decoded parts (empty for malformed JSON) are
handled in order. -/
def handleLine (decode : List Char → List GenerationPart) (st : SSEState)
    (line : List Char) : SSEState × List Ev :=
  if ("data: ".toList).isPrefixOf line then
    if trimChars (line.drop 6) = "[DONE]".toList then (st, [])
    else handleParts st (decode (trimChars (line.drop 6)))
  else (st, [])

/-- Folding `handleLine` over a run of complete lines. -/
def handleLines (decode : List Char → List GenerationPart) (st : SSEState)
    (ls : List (List Char)) : SSEState × List Ev :=
  foldEvents (handleLine decode) st ls

/-- JavaScript `text.split('\n')`: always a non-empty list of
newline-free segments. -/
def splitNl : List Char → List (List Char)
  | [] => [[]]
  | c :: rest =>
    if c = '\n' then [] :: splitNl rest
    else
      match splitNl rest with
      | [] => [[c]]
      | s :: ss => (c :: s) :: ss

/-- One `reader.read()` chunk (lines 177–180): append to the buffer,
split on newlines, hold back the trailing (possibly incomplete)
fragment (`buffer = lines.pop() || ''`), and process every complete
line. -/
def handleChunk (decode : List Char → List GenerationPart) (st : SSEState)
    (chunk : List Char) : SSEState × List Ev :=
  let lines := splitNl (st.buffer ++ chunk)
  handleLines decode { st with buffer := (lines.getLast?).getD [] } lines.dropLast

/-- The whole streaming loop over the sequence of received chunks. -/
def processChunks (decode : List Char → List GenerationPart) (st : SSEState)
    (chunks : List (List Char)) : SSEState × List Ev :=
  foldEvents (handleChunk decode) st chunks

/-- Projection of a trace to the `onThoughtText` / `onInterimImage` /
`onFinalImage` calls the claim counts. -/
def mainEvents (evs : List Ev) : List Ev :=
  evs.filter (fun e =>
    match e with
    | Ev.thought _ => true
    | Ev.interim _ => true
    | Ev.final _ => true
    | _ => false)

/-! ## Rich-streaming Google adapter with internal retry loop
(`providers/google.ts`, `GoogleNanoBananaProvider.generateImageStream`). -/

/-- The observable outcome of one `fetch` of the generation endpoint:
the promise rejects with an error, the response is not ok (carrying the
message the source extracts from the body, with its
`API error: <status>` fallback), the response has no body, or an SSE
stream delivering the given chunks. -/
inductive FetchOutcome where
  | fetchThrow (e : JsError)
  | httpError (status : Nat) (message : String)
  | noBody
  | stream (chunks : List (List Char))

/-- Local retry state of one `generateImageStream` invocation:
`attempt`, `consecutiveSameErrors`, `lastErrorType`. -/
structure GoogleRetryState where
  attempt : Nat
  consecutiveSameErrors : Nat
  lastErrorType : String
deriving DecidableEq, Repr

/-- The repeated consecutive-same-error tracking block: equal tags
increment the counter, a changed tag resets it to 1 and records the new
tag. -/
def trackSameError (st : GoogleRetryState) (errorType : String) : GoogleRetryState :=
  if errorType = st.lastErrorType then
    { st with consecutiveSameErrors := st.consecutiveSameErrors + 1 }
  else
    { st with consecutiveSameErrors := 1, lastErrorType := errorType }

/-- The `// Success - reset error tracking` block executed as soon as a
response comes back ok (before the body/stream is examined). -/
def resetErrorTracking (st : GoogleRetryState) : GoogleRetryState :=
  { st with consecutiveSameErrors := 0, lastErrorType := "" }

/-- The message of `onError` in the catch branch:
`error instanceof Error ? error.message : 'Unknown error'`. -/
def jsErrorMessage (e : JsError) : String :=
  if e.isError then e.message else "Unknown error"

/-- Result of one adapter invocation: the events fired (in order) and
the number of generation-endpoint fetches performed. -/
structure RunResult where
  trace : List Ev
  attempts : Nat
deriving DecidableEq, Repr

/-- The body of `while (attempt < MAX_RETRIES)` (lines 90–273),
as a fuel recursion: `fuel` is the number of loop iterations the guard
still admits, so the loop is entered with `fuel = MAX_RETRIES` and
exits with the max-retries `onError` when fuel runs out.  `env k` is
the outcome of the fetch performed by attempt `k`.  Returns the events
of the remaining iterations, the final retry state and the `completed`
flag. -/
def googleLoop (decode : List Char → List GenerationPart) (env : Nat → FetchOutcome) :
    Nat → GoogleRetryState → List Ev × GoogleRetryState × Bool
  | 0, st =>
    ([Ev.error s!"최대 재시도 횟수({MAX_RETRIES}회)를 초과했습니다. 나중에 다시 시도해주세요."],
     st, false)
  | fuel + 1, st =>
    let a := st.attempt + 1
    let st0 : GoogleRetryState := { st with attempt := a }
    let head :=
      if 1 < a then
        [Ev.progress 5 s!"재시도 중... ({a}회, 동일 오류 {st0.consecutiveSameErrors}회)"]
      else
        [Ev.progress 5 "API 연결 중..."]
    match env a with
    | FetchOutcome.fetchThrow e =>
      if isRetryableError (some e) none then
        let st1 := trackSameError st0 "network"
        let ri := getRetryInterval st1.consecutiveSameErrors
        let r := googleLoop decode env fuel st1
        (head ++ [Ev.progress 5 s!"네트워크 오류, {formatDuration ri} 후 재시도... ({a}회)",
                  Ev.sleep ri] ++ r.1, r.2)
      else
        (head ++ [Ev.error (jsErrorMessage e)], st0, false)
    | FetchOutcome.httpError status message =>
      if isRetryableError none (some status) then
        let st1 := trackSameError st0 ("http_" ++ toString status)
        let ri := getRetryInterval st1.consecutiveSameErrors
        let r := googleLoop decode env fuel st1
        (head ++ [Ev.progress 5 s!"서버 오류, {formatDuration ri} 후 재시도... ({a}회)",
                  Ev.sleep ri] ++ r.1, r.2)
      else
        (head ++ [Ev.error message], st0, false)
    | FetchOutcome.noBody =>
      let st1 := trackSameError (resetErrorTracking st0) "no_body"
      let ri := getRetryInterval st1.consecutiveSameErrors
      let r := googleLoop decode env fuel st1
      (head ++ [Ev.progress 5 s!"응답 없음, {formatDuration ri} 후 재시도... ({a}회)",
                Ev.sleep ri] ++ r.1, r.2)
    | FetchOutcome.stream chunks =>
      let st1 := resetErrorTracking st0
      let conn :=
        if 1 < a then Ev.progress 10 s!"스트림 연결됨 (재시도 {a})"
        else Ev.progress 10 "스트림 연결됨"
      let p := processChunks decode initSSE chunks
      if p.1.hasFinalImage then
        (head ++ [conn] ++ p.2 ++ [Ev.progress 100 "완료!", Ev.complete], st1, true)
      else
        let st2 := trackSameError st1 "no_image"
        let ri := getRetryInterval st2.consecutiveSameErrors
        let r := googleLoop decode env fuel st2
        (head ++ [conn] ++ p.2 ++
         [Ev.progress 5 s!"이미지 생성 실패, {formatDuration ri} 후 재시도... ({a}회)",
          Ev.sleep ri] ++ r.1, r.2)

/-- `GoogleNanoBananaProvider.generateImageStream`, abstracted over the
outcome `env k` of the fetch of attempt `k`: runs the retry loop from a
fresh state and appends the `finally` block's `onComplete` when the
loop did not complete normally. -/
def googleRun (decode : List Char → List GenerationPart) (env : Nat → FetchOutcome) :
    RunResult :=
  let r := googleLoop decode env MAX_RETRIES ⟨0, 0, ""⟩
  { trace := if r.2.2 then r.1 else r.1 ++ [Ev.complete]
    attempts := r.2.1.attempt }

/-! ## Edit-capable OpenAI adapter and flat-request BytePlus adapter
(`providers/openai.ts`, `providers/byteplus.ts`).  Both perform a single
request/response exchange; their observable outcome is modelled by
`FlatOutcome`. -/

/-- Outcome of the single fetch of a flat request: rejection, non-ok
response (with the extracted message), an ok response without
`data.data[0]`, or a `data.data[0]` record with optional `b64_json` and
`url` fields.  `urlFetch` is the result of the adapter's follow-up
`urlToBase64(url)` when it takes that path (`none` models that helper
throwing its `Failed to convert image URL to base64` error). -/
inductive FlatOutcome where
  | fetchThrow (e : JsError)
  | httpError (status : Nat) (message : String)
  | noData
  | data0 (b64 : Option String) (url : Option String) (urlFetch : Option String)

/-- `OpenAIImagesProvider.generateImageStream`: one fetch (of the edits
endpoint when reference images are present, the generations endpoint
otherwise — the response handling is identical), two coarse progress
milestones, and `onError`/`onFinalImage` + `onComplete` on every path.
The degenerate `data.data[0]` with neither `b64_json` nor `url` passes
the undefined `imageData` straight to `onFinalImage`; that absent value
is modelled as `""`. -/
def openaiRun (o : FlatOutcome) : RunResult :=
  let head := [Ev.progress 10 "API 요청 중..."]
  match o with
  | FlatOutcome.fetchThrow e =>
    { trace := head ++ [Ev.error (jsErrorMessage e), Ev.complete], attempts := 1 }
  | FlatOutcome.httpError _ message =>
    { trace := head ++ [Ev.error message, Ev.complete], attempts := 1 }
  | FlatOutcome.noData =>
    { trace := head ++ [Ev.progress 80 "이미지 수신 중...", Ev.error "No image was generated",
                        Ev.complete]
      attempts := 1 }
  | FlatOutcome.data0 b64 url urlFetch =>
    let recv := Ev.progress 80 "이미지 수신 중..."
    let done := [Ev.progress 100 "완료!", Ev.complete]
    match jsStr b64, jsStr url with
    | none, some _ =>
      match urlFetch with
      | some img => { trace := head ++ [recv, Ev.final img] ++ done, attempts := 1 }
      | none =>
        { trace := head ++ [recv, Ev.error "Failed to convert image URL to base64", Ev.complete]
          attempts := 1 }
    | some b, _ => { trace := head ++ [recv, Ev.final b] ++ done, attempts := 1 }
    | none, none => { trace := head ++ [recv, Ev.final ""] ++ done, attempts := 1 }

/-- `BytePlusSeedreamProvider.generateImageStream`: one fetch, no
progress events, `onFinalImage` + `onComplete` on success, a bare
`onError` (without `onComplete`) on every failure path. -/
def byteplusRun (o : FlatOutcome) : RunResult :=
  match o with
  | FlatOutcome.fetchThrow e => { trace := [Ev.error (jsErrorMessage e)], attempts := 1 }
  | FlatOutcome.httpError _ message => { trace := [Ev.error message], attempts := 1 }
  | FlatOutcome.noData => { trace := [Ev.error "No image was generated"], attempts := 1 }
  | FlatOutcome.data0 b64 url urlFetch =>
    match jsStr b64, jsStr url with
    | some b, _ => { trace := [Ev.final b, Ev.complete], attempts := 1 }
    | none, some _ =>
      match urlFetch with
      | some img => { trace := [Ev.final img, Ev.complete], attempts := 1 }
      | none =>
        { trace := [Ev.error "Failed to convert image URL to base64"], attempts := 1 }
    | none, none => { trace := [Ev.error "No image data in response"], attempts := 1 }

/-! ## Orchestrator callback wiring and step relation
(`App.tsx`: `processQueue` and the queue-watching effect). -/

/-- How `processQueue`'s callback sink for item `id` updates the store
and the `isProcessingRef` guard on one event.  `onProgress` updates
progress then message; `onFinalImage` is `completeItem` (with
`elapsed = Date.now() - startTimeRef`), `onError` is `failItem`,
`onComplete` clears the processing guard; a `sleep` is only the passage
of time inside the adapter. -/
def applyEv (id : Nat) (startTime now : Nat) (s : QueueState × Bool) (e : Ev) :
    QueueState × Bool :=
  match e with
  | Ev.progress p m => (setStatusMessage id m (updateProgress id p s.1), s.2)
  | Ev.thought t => (addThoughtText id t s.1, s.2)
  | Ev.interim d => (addInterimImage id d s.1, s.2)
  | Ev.final d => (completeItem id d (now - startTime) now s.1, s.2)
  | Ev.error m => (failItem id m now s.1, s.2)
  | Ev.complete => (s.1, false)
  | Ev.sleep _ => s

/-- Applying a whole adapter trace to the store. -/
def applyTrace (id : Nat) (startTime now : Nat) (s : QueueState × Bool)
    (evs : List Ev) : QueueState × Bool :=
  evs.foldl (applyEv id startTime now) s

/-- The orchestrator's global state: the queue store plus the
`isProcessingRef` single-flight guard of `App.tsx`. -/
structure OrchState where
  queue : QueueState
  isProcessing : Bool
deriving DecidableEq, Repr

/-- The initial state: empty persisted queue, guard down. -/
def initOrch : OrchState :=
  { queue := { items := [], currentItemId := none }, isProcessing := false }

/-- Small-step transitions of the orchestrator.  JavaScript is
single-threaded, so each store operation is atomic; in particular
`processQueue`'s guard test and guard set run with no interleaving
(`pickup`).  Adapter callbacks close over the picked item's id, which
equals `currentItemId` until the item settles (`cbFinal`/`cbError`); a
callback that fires after its item was removed finds
`currentItemId = none` and its store update is a no-op on other items
(`cbFinalLate`/`cbErrorLate`).  `finish` is `onComplete`, which every
adapter fires only after the active item has settled (see
`googleRun_settles_before_complete` and the flat variants below), hence
after `completeItem`/`failItem` has cleared `currentItemId`. -/
inductive OrchStep : OrchState → OrchState → Prop where
  | enqueue (s : OrchState) (data : ItemData) (id now : Nat)
      (hfresh : id ∉ s.queue.items.map QueueItem.id) :
      OrchStep s { queue := addItem data id now s.queue, isProcessing := s.isProcessing }
  | pickup (s : OrchState) (item : QueueItem) (now : Nat)
      (hguard : s.isProcessing = false)
      (hnext : getNextPending s.queue = some item) :
      OrchStep s { queue := startProcessing item.id now s.queue, isProcessing := true }
  | cbProgress (s : OrchState) (id p : Nat) (m : String) :
      OrchStep s { s with queue := setStatusMessage id m (updateProgress id p s.queue) }
  | cbThought (s : OrchState) (id : Nat) (t : String) :
      OrchStep s { s with queue := addThoughtText id t s.queue }
  | cbInterim (s : OrchState) (id : Nat) (d : String) :
      OrchStep s { s with queue := addInterimImage id d s.queue }
  | cbFinal (s : OrchState) (id elapsed now : Nat) (d : String)
      (hcur : s.queue.currentItemId = some id) :
      OrchStep s { s with queue := completeItem id d elapsed now s.queue }
  | cbError (s : OrchState) (id now : Nat) (m : String)
      (hcur : s.queue.currentItemId = some id) :
      OrchStep s { s with queue := failItem id m now s.queue }
  | cbFinalLate (s : OrchState) (id elapsed now : Nat) (d : String)
      (hcur : s.queue.currentItemId = none) :
      OrchStep s { s with queue := completeItem id d elapsed now s.queue }
  | cbErrorLate (s : OrchState) (id now : Nat) (m : String)
      (hcur : s.queue.currentItemId = none) :
      OrchStep s { s with queue := failItem id m now s.queue }
  | finish (s : OrchState) (hcur : s.queue.currentItemId = none) :
      OrchStep s { s with isProcessing := false }
  | remove (s : OrchState) (id : Nat) :
      OrchStep s { s with queue := removeItem id s.queue }
  | clearDone (s : OrchState) :
      OrchStep s { s with queue := clearCompleted s.queue }
  | reset (s : OrchState) :
      OrchStep s { s with queue := clearAll s.queue }

/-- Reachability of an orchestrator state from startup. -/
def OrchReach (s : OrchState) : Prop :=
  Relation.ReflTransGen OrchStep initOrch s

/-- The number of `generating` items in the store. -/
def generatingCount (q : QueueState) : Nat :=
  q.items.countP (fun item => item.status = QueueItemStatus.generating)

/-! ## General lemmas about the event-accumulating fold -/

theorem foldEvents_nil {σ α : Type} (g : σ → α → σ × List Ev) (st : σ) :
    foldEvents g st [] = (st, []) := rfl

theorem foldEvents_foldl {σ α : Type} (g : σ → α → σ × List Ev) :
    ∀ (xs : List α) (st : σ) (acc : List Ev),
      xs.foldl (fun a x => ((g a.1 x).1, a.2 ++ (g a.1 x).2)) (st, acc) =
      ((foldEvents g st xs).1, acc ++ (foldEvents g st xs).2) := by
  intro xs
  induction xs with
  | nil => intro st acc; simp [foldEvents]
  | cons x xs ih =>
    intro st acc
    simp only [foldEvents, List.foldl_cons, List.nil_append]
    rw [ih, ih ((g st x).1) ((g st x).2)]
    simp

theorem foldEvents_cons {σ α : Type} (g : σ → α → σ × List Ev) (st : σ) (x : α)
    (xs : List α) :
    foldEvents g st (x :: xs) =
      ((foldEvents g (g st x).1 xs).1, (g st x).2 ++ (foldEvents g (g st x).1 xs).2) := by
  simp only [foldEvents, List.foldl_cons]
  rw [foldEvents_foldl]
  simp [foldEvents]

theorem foldEvents_append {σ α : Type} (g : σ → α → σ × List Ev) (st : σ)
    (xs ys : List α) :
    foldEvents g st (xs ++ ys) =
      ((foldEvents g (foldEvents g st xs).1 ys).1,
       (foldEvents g st xs).2 ++ (foldEvents g (foldEvents g st xs).1 ys).2) := by
  induction xs generalizing st with
  | nil => simp [foldEvents_nil]
  | cons x xs ih =>
    rw [List.cons_append, foldEvents_cons, foldEvents_cons, ih]
    simp

theorem foldEvents_rel {σ α : Type} (g : σ → α → σ × List Ev)
    (R : σ → σ → List Ev → Prop)
    (hrefl : ∀ st, R st st [])
    (hcomp : ∀ st st1 st2 e1 e2, R st st1 e1 → R st1 st2 e2 → R st st2 (e1 ++ e2))
    (hstep : ∀ st x, R st (g st x).1 (g st x).2) :
    ∀ (xs : List α) (st : σ), R st (foldEvents g st xs).1 (foldEvents g st xs).2 := by
  intro xs
  induction xs with
  | nil => intro st; exact hrefl st
  | cons x xs ih =>
    intro st
    rw [foldEvents_cons]
    exact hcomp st (g st x).1 _ _ _ (hstep st x) (ih (g st x).1)

/-! ## Newline splitting lemmas -/

theorem splitNl_ne_nil : ∀ l : List Char, splitNl l ≠ []
  | [] => by simp [splitNl]
  | c :: rest => by
    simp only [splitNl]
    split
    · simp
    · cases h : splitNl rest <;> simp

theorem splitNl_no_nl : ∀ l : List Char, ∀ seg ∈ splitNl l, '\n' ∉ seg := by
  intro l
  induction l with
  | nil =>
    intro seg hseg
    simp [splitNl] at hseg
    simp [hseg]
  | cons c rest ih =>
    intro seg hseg
    simp only [splitNl] at hseg
    by_cases hc : c = '\n'
    · rw [if_pos hc] at hseg
      rcases List.mem_cons.mp hseg with h | h
      · simp [h]
      · exact ih seg h
    · rw [if_neg hc] at hseg
      cases h : splitNl rest with
      | nil => exact absurd h (splitNl_ne_nil rest)
      | cons s ss =>
        rw [h] at hseg
        rcases List.mem_cons.mp hseg with h2 | h2
        · subst h2
          intro hmem
          rcases List.mem_cons.mp hmem with h3 | h3
          · exact hc h3.symm
          · exact ih s (h ▸ List.mem_cons_self s ss) h3
        · exact ih seg (h ▸ List.mem_cons_of_mem s h2)

theorem splitNl_of_no_nl : ∀ l : List Char, '\n' ∉ l → splitNl l = [l] := by
  intro l
  induction l with
  | nil => intro _; rfl
  | cons c rest ih =>
    intro h
    have hc : c ≠ '\n' := fun hh => h (hh ▸ List.mem_cons_self c rest)
    have hrest : '\n' ∉ rest := fun hh => h (List.mem_cons_of_mem c hh)
    simp only [splitNl, if_neg hc, ih hrest]

/-- Prepending text to the first segment of a split. -/
def mergeFirst (x : List Char) : List (List Char) → List (List Char)
  | [] => [x]
  | h :: t => (x ++ h) :: t


theorem splitNl_cons_nl (rest : List Char) :
    splitNl ('\n' :: rest) = [] :: splitNl rest := by
  simp [splitNl]

theorem splitNl_cons_of (c : Char) (rest s : List Char) (ss : List (List Char))
    (hc : c ≠ '\n') (h : splitNl rest = s :: ss) :
    splitNl (c :: rest) = (c :: s) :: ss := by
  simp [splitNl, hc, h]

theorem splitNl_append : ∀ a b : List Char,
    splitNl (a ++ b) =
      (splitNl a).dropLast ++ mergeFirst (((splitNl a).getLast?).getD []) (splitNl b) := by
  intro a
  induction a with
  | nil =>
    intro b
    cases hb : splitNl b with
    | nil => exact absurd hb (splitNl_ne_nil b)
    | cons s ss => simp [splitNl, mergeFirst, hb]
  | cons c rest ih =>
    intro b
    by_cases hc : c = '\n'
    · subst hc
      rw [List.cons_append, splitNl_cons_nl, splitNl_cons_nl, ih b]
      cases h : splitNl rest with
      | nil => exact absurd h (splitNl_ne_nil rest)
      | cons s ss => simp
    · obtain ⟨s, ss, h⟩ : ∃ s ss, splitNl rest = s :: ss := by
        cases h : splitNl rest with
        | nil => exact absurd h (splitNl_ne_nil rest)
        | cons s ss => exact ⟨s, ss, rfl⟩
      obtain ⟨t, ts, hab⟩ : ∃ t ts, splitNl (rest ++ b) = t :: ts := by
        cases h2 : splitNl (rest ++ b) with
        | nil => exact absurd h2 (splitNl_ne_nil (rest ++ b))
        | cons t ts => exact ⟨t, ts, rfl⟩
      rw [List.cons_append, splitNl_cons_of c (rest ++ b) t ts hc hab,
        splitNl_cons_of c rest s ss hc h]
      have ihe : t :: ts =
          (s :: ss).dropLast ++ mergeFirst (((s :: ss).getLast?).getD []) (splitNl b) := by
        rw [← hab, ih b, h]
      cases ss with
      | nil =>
        obtain ⟨u, us, hb⟩ : ∃ u us, splitNl b = u :: us := by
          cases h2 : splitNl b with
          | nil => exact absurd h2 (splitNl_ne_nil b)
          | cons u us => exact ⟨u, us, rfl⟩
        rw [hb] at ihe ⊢
        simp only [List.dropLast_single, List.nil_append, mergeFirst] at ihe ⊢
        simp at ihe
        simp [ihe.1, ihe.2]
      | cons s2 ss2 =>
        simp only [List.dropLast_cons₂, List.getLast?_cons_cons] at ihe ⊢
        simp at ihe
        simp [ihe.1, ihe.2]

/-! ## Parser state lemmas -/

theorem handlePart_buffer (st : SSEState) (part : GenerationPart) :
    (handlePart st part).1.buffer = st.buffer := by
  by_cases ht : part.thought <;>
    cases h1 : jsStr part.text <;> cases h2 : jsStr part.inlineData <;>
    simp [handlePart, h1, h2, ht]

theorem handleParts_buffer (st : SSEState) (parts : List GenerationPart) :
    (handleParts st parts).1.buffer = st.buffer :=
  foldEvents_rel handlePart (fun a b _ => b.buffer = a.buffer) (fun _ => rfl)
    (fun _ _ _ _ _ h1 h2 => h2.trans h1) (fun a p => handlePart_buffer a p) parts st

theorem handleParts_cons (st : SSEState) (p : GenerationPart) (ps : List GenerationPart) :
    handleParts st (p :: ps) =
      ((handleParts (handlePart st p).1 ps).1,
       (handlePart st p).2 ++ (handleParts (handlePart st p).1 ps).2) :=
  foldEvents_cons handlePart st p ps

theorem handleLines_cons (decode : List Char → List GenerationPart) (st : SSEState)
    (l : List Char) (ls : List (List Char)) :
    handleLines decode st (l :: ls) =
      ((handleLines decode (handleLine decode st l).1 ls).1,
       (handleLine decode st l).2 ++ (handleLines decode (handleLine decode st l).1 ls).2) :=
  foldEvents_cons (handleLine decode) st l ls

theorem processChunks_cons (decode : List Char → List GenerationPart) (st : SSEState)
    (c : List Char) (cs : List (List Char)) :
    processChunks decode st (c :: cs) =
      ((processChunks decode (handleChunk decode st c).1 cs).1,
       (handleChunk decode st c).2 ++ (processChunks decode (handleChunk decode st c).1 cs).2) :=
  foldEvents_cons (handleChunk decode) st c cs

theorem handleLine_buffer (decode : List Char → List GenerationPart) (st : SSEState)
    (line : List Char) : (handleLine decode st line).1.buffer = st.buffer := by
  unfold handleLine
  split
  · split
    · rfl
    · exact handleParts_buffer st _
  · rfl

theorem handleLines_buffer (decode : List Char → List GenerationPart) (st : SSEState)
    (ls : List (List Char)) : (handleLines decode st ls).1.buffer = st.buffer :=
  foldEvents_rel (handleLine decode) (fun a b _ => b.buffer = a.buffer) (fun _ => rfl)
    (fun _ _ _ _ _ h1 h2 => h2.trans h1) (fun a l => handleLine_buffer decode a l) ls st

theorem handlePart_buffer_set (st : SSEState) (part : GenerationPart) (b' : List Char) :
    handlePart { st with buffer := b' } part =
      ({ (handlePart st part).1 with buffer := b' }, (handlePart st part).2) := by
  by_cases ht : part.thought <;>
    cases h1 : jsStr part.text <;> cases h2 : jsStr part.inlineData <;>
    simp [handlePart, h1, h2, ht]

theorem handleParts_buffer_set :
    ∀ (parts : List GenerationPart) (st : SSEState) (b' : List Char),
      handleParts { st with buffer := b' } parts =
        ({ (handleParts st parts).1 with buffer := b' }, (handleParts st parts).2) := by
  intro parts
  induction parts with
  | nil => intro st b'; rfl
  | cons p ps ih =>
    intro st b'
    rw [handleParts_cons, handleParts_cons, handlePart_buffer_set]
    dsimp only
    rw [ih (handlePart st p).1 b']

theorem handleLine_buffer_set (decode : List Char → List GenerationPart) (st : SSEState)
    (line : List Char) (b' : List Char) :
    handleLine decode { st with buffer := b' } line =
      ({ (handleLine decode st line).1 with buffer := b' }, (handleLine decode st line).2) := by
  unfold handleLine
  split
  · split
    · rfl
    · exact handleParts_buffer_set _ st b'
  · rfl

theorem handleLines_buffer_set (decode : List Char → List GenerationPart) :
    ∀ (ls : List (List Char)) (st : SSEState) (b' : List Char),
      handleLines decode { st with buffer := b' } ls =
        ({ (handleLines decode st ls).1 with buffer := b' }, (handleLines decode st ls).2) := by
  intro ls
  induction ls with
  | nil => intro st b'; rfl
  | cons l ls ih =>
    intro st b'
    rw [handleLines_cons, handleLines_cons, handleLine_buffer_set]
    dsimp only
    rw [ih (handleLine decode st l).1 b']

theorem mergeFirst_ne_nil (x : List Char) (ls : List (List Char)) :
    mergeFirst x ls ≠ [] := by
  cases ls <;> simp [mergeFirst]

theorem getLast_getD_mem {α : Type} (l : List α) (d : α) (h : l ≠ []) :
    (l.getLast?).getD d ∈ l := by
  rw [List.getLast?_eq_getLast l h]
  simp only [Option.getD_some]
  exact List.getLast_mem h

theorem handleLines_append (decode : List Char → List GenerationPart) (st : SSEState)
    (xs ys : List (List Char)) :
    handleLines decode st (xs ++ ys) =
      ((handleLines decode (handleLines decode st xs).1 ys).1,
       (handleLines decode st xs).2 ++ (handleLines decode (handleLines decode st xs).1 ys).2) :=
  foldEvents_append (handleLine decode) st xs ys

theorem handleChunk_eq (decode : List Char → List GenerationPart) (st : SSEState)
    (chunk : List Char) :
    handleChunk decode st chunk =
      handleLines decode
        { st with buffer := ((splitNl (st.buffer ++ chunk)).getLast?).getD [] }
        (splitNl (st.buffer ++ chunk)).dropLast := rfl

theorem handleChunk_buffer (decode : List Char → List GenerationPart) (st : SSEState)
    (chunk : List Char) :
    (handleChunk decode st chunk).1.buffer =
      ((splitNl (st.buffer ++ chunk)).getLast?).getD [] := by
  rw [handleChunk_eq]
  rw [handleLines_buffer]

theorem handleChunk_buffer_no_nl (decode : List Char → List GenerationPart) (st : SSEState)
    (chunk : List Char) : '\n' ∉ (handleChunk decode st chunk).1.buffer := by
  rw [handleChunk_buffer]
  exact splitNl_no_nl _ _ (getLast_getD_mem _ _ (splitNl_ne_nil _))

theorem handleChunk_append (decode : List Char → List GenerationPart) (st : SSEState)
    (a b : List Char) :
    handleChunk decode st (a ++ b) =
      ((handleChunk decode (handleChunk decode st a).1 b).1,
       (handleChunk decode st a).2 ++ (handleChunk decode (handleChunk decode st a).1 b).2) := by
  have hLne : splitNl (st.buffer ++ a) ≠ [] := splitNl_ne_nil _
  have hlbmem : ((splitNl (st.buffer ++ a)).getLast?).getD [] ∈ splitNl (st.buffer ++ a) :=
    getLast_getD_mem _ _ hLne
  have hnl : '\n' ∉ ((splitNl (st.buffer ++ a)).getLast?).getD [] :=
    splitNl_no_nl _ _ hlbmem
  have hMne : mergeFirst (((splitNl (st.buffer ++ a)).getLast?).getD []) (splitNl b) ≠ [] :=
    mergeFirst_ne_nil _ _
  have hsplit : splitNl (st.buffer ++ (a ++ b)) =
      (splitNl (st.buffer ++ a)).dropLast ++
        mergeFirst (((splitNl (st.buffer ++ a)).getLast?).getD []) (splitNl b) := by
    rw [← List.append_assoc, splitNl_append]
  have hsplit2 : splitNl ((((splitNl (st.buffer ++ a)).getLast?).getD []) ++ b) =
      mergeFirst (((splitNl (st.buffer ++ a)).getLast?).getD []) (splitNl b) := by
    rw [splitNl_append, splitNl_of_no_nl _ hnl]
    simp
  rw [handleChunk_eq decode st (a ++ b), hsplit,
    List.getLast?_append_of_ne_nil _ hMne, List.dropLast_append_of_ne_nil _ hMne,
    handleLines_append]
  conv_rhs => rw [handleChunk_eq decode (handleChunk decode st a).1 b]
  rw [handleChunk_buffer decode st a, hsplit2]
  rw [handleChunk_eq decode st a]
  simp only [handleLines_buffer_set]

theorem processChunks_flatten (decode : List Char → List GenerationPart) :
    ∀ (chunks : List (List Char)) (st : SSEState), '\n' ∉ st.buffer →
      processChunks decode st chunks = handleChunk decode st chunks.flatten := by
  intro chunks
  induction chunks with
  | nil =>
    intro st h
    rw [List.flatten_nil, handleChunk_eq]
    rw [List.append_nil, splitNl_of_no_nl _ h]
    rfl
  | cons c cs ih =>
    intro st h
    rw [processChunks_cons, List.flatten_cons, handleChunk_append decode st c cs.flatten,
      ih (handleChunk decode st c).1 (handleChunk_buffer_no_nl decode st c)]

/-! ## C5: chunking invariance of the streaming parser -/

/-- A concrete model of `JSON.parse` + `candidates[0].content.parts`
navigation for the scenario stream: its three records decode to one
thought-text part, one interim-preview part and one final-artifact part
respectively; any other payload is undecodable (`[]`). -/
def decodeScenario (s : List Char) : List GenerationPart :=
  if s = ("EV-THOUGHT").toList then
    [{ thought := true, text := some "hello", inlineData := none }]
  else if s = ("EV-INTERIM").toList then
    [{ thought := true, text := none, inlineData := some "interim-image" }]
  else if s = ("EV-FINAL").toList then
    [{ thought := false, text := none, inlineData := some "final-image" }]
  else []

/-- The scenario stream: one thought event, one interim-image event,
one final-image event, each a complete `data:` line. -/
def scenarioStream : List Char :=
  ("data: EV-THOUGHT\ndata: EV-INTERIM\ndata: EV-FINAL\n").toList

/-- **C5.**  The streaming parser's output depends only on the
concatenation of the received chunks, never on where the chunk
boundaries fall: trailing partial lines are buffered across chunk
boundaries and a line is processed only once complete.  In particular a
stream with one thought record, one interim-image record and one
final-image record produces exactly one `onThoughtText`, one
`onInterimImage` and one `onFinalImage` call, in that order, under
every chunking. -/
theorem parser_chunking_invariant :
    (∀ (decode : List Char → List GenerationPart) (c1 c2 : List (List Char)),
        c1.flatten = c2.flatten →
        processChunks decode initSSE c1 = processChunks decode initSSE c2) ∧
    (∀ chunks : List (List Char), chunks.flatten = scenarioStream →
        mainEvents (processChunks decodeScenario initSSE chunks).2 =
          [Ev.thought "hello", Ev.interim "interim-image", Ev.final "final-image"]) := by
  constructor
  · intro decode c1 c2 h
    rw [processChunks_flatten decode c1 initSSE (by simp [initSSE]),
      processChunks_flatten decode c2 initSSE (by simp [initSSE]), h]
  · intro chunks h
    rw [processChunks_flatten decodeScenario chunks initSSE (by simp [initSSE]), h]
    decide

/-- Witness for C5: a concrete chunking of the scenario stream with
splits in the middle of the first and third lines. -/
theorem parser_chunking_invariant_witness :
    mainEvents (processChunks decodeScenario initSSE
      [("data: EV-TH").toList, ("OUGHT\ndata: EV-INTERIM\nda").toList,
       ("ta: EV-FINAL\n").toList]).2 =
      [Ev.thought "hello", Ev.interim "interim-image", Ev.final "final-image"] :=
  parser_chunking_invariant.2 _ (by decide)

/-! ## C6: the conservative retry-interval function -/

/-- **C6.**  `getRetryInterval` is a pure function of the
consecutive-same-tag failure count: at most the threshold (10) it
returns the fixed 60-second interval, above it the 60-second interval
times `1.5 ^ (n - 10)`, capped at the 24-hour ceiling.  (Being a Lean
function of `n` alone, it inspects no clock.) -/
theorem getRetryInterval_spec (n : Nat) :
    (n ≤ 10 → getRetryInterval n = 60 * 1000) ∧
    (10 < n →
      getRetryInterval n =
        min ((60 * 1000) * (3 / 2 : ℚ) ^ (n - 10)) (24 * 60 * 60 * 1000)) := by
  constructor
  · intro h
    rw [getRetryInterval, if_pos (by simpa [BACKOFF_THRESHOLD] using h)]
    norm_num [INITIAL_RETRY_INTERVAL_MS]
  · intro h
    rw [getRetryInterval, if_neg (by simp [BACKOFF_THRESHOLD]; omega)]
    norm_num [INITIAL_RETRY_INTERVAL_MS, BACKOFF_MULTIPLIER, BACKOFF_THRESHOLD,
      MAX_RETRY_INTERVAL_MS]

/-- Witness for C6: the fixed interval at `n = 5` and the backoff
formula at `n = 12`. -/
theorem getRetryInterval_spec_witness :
    getRetryInterval 5 = 60 * 1000 ∧
    getRetryInterval 12 =
      min ((60 * 1000) * (3 / 2 : ℚ) ^ (12 - 10)) (24 * 60 * 60 * 1000) :=
  ⟨(getRetryInterval_spec 5).1 (by norm_num), (getRetryInterval_spec 12).2 (by norm_num)⟩

/-! ## Store membership lemmas -/

theorem mem_updateById {id : Nat} {g : QueueItem → QueueItem} {items : List QueueItem}
    {it' : QueueItem} (h : it' ∈ updateById id g items) :
    ∃ it ∈ items, it' = if it.id = id then g it else it := by
  rcases List.mem_map.mp h with ⟨it, hmem, heq⟩
  exact ⟨it, hmem, heq.symm⟩

/-- Any `generating` item after an `updateById` whose payload preserves
ids and does not introduce `generating` comes from a `generating` item
with the same id. -/
theorem updateById_gen_source {id : Nat} {g : QueueItem → QueueItem}
    {items : List QueueItem} {it' : QueueItem}
    (h : it' ∈ updateById id g items)
    (hgen : it'.status = QueueItemStatus.generating)
    (hgid : ∀ it, (g it).id = it.id)
    (hgst : ∀ it, (g it).status = QueueItemStatus.generating →
      it.status = QueueItemStatus.generating) :
    ∃ it ∈ items, it.id = it'.id ∧ it.status = QueueItemStatus.generating := by
  rcases mem_updateById h with ⟨it, hmem, heq⟩
  by_cases hid : it.id = id
  · rw [if_pos hid] at heq
    refine ⟨it, hmem, ?_, hgst it ?_⟩
    · rw [heq, hgid]
    · rw [← heq, hgen]
  · rw [if_neg hid] at heq
    exact ⟨it, hmem, by rw [heq], by rw [← heq]; exact hgen⟩

/-! ## C10: the persisted projection strips all payloads -/

/-- **C10.**  The persisted projection (`partialize`) strips every
large payload field — `referenceImages`, `finalImage`, `finalImages`,
`interimImages`, `thoughtTexts` are all persisted as `undefined` — and
persists `currentItemId` as `null`, for every store state. -/
theorem partialize_spec (s : QueueState) :
    (partializeState s).currentItemId = none ∧
    ∀ item ∈ (partializeState s).items,
      item.referenceImages = none ∧ item.finalImage = none ∧ item.finalImages = none ∧
      item.interimImages = none ∧ item.thoughtTexts = none := by
  refine ⟨rfl, ?_⟩
  intro item hmem
  simp only [partializeState] at hmem
  rcases List.mem_map.mp hmem with ⟨it, _, heq⟩
  rw [← heq]
  simp [partializeItem]

/-- A fully-populated item used by concrete witnesses. -/
def itemFull : QueueItem :=
  { id := 3, prompt := "a cat", referenceImages := some ["ref1", "ref2"],
    resolution := "1K", aspectRatio := "1:1", model := "gemini-image", provider := "google",
    status := QueueItemStatus.generating, progress := some 40,
    statusMessage := some "생성 중", thoughtTexts := some ["t1"],
    interimImages := some ["i1", "i2"], finalImage := some "f",
    finalImages := some ["f"], error := none, createdAt := 0, startedAt := some 1,
    completedAt := none, elapsedTime := some 9 }

/-- A concrete populated store state for witnesses. -/
def stateFull : QueueState :=
  { items := [itemFull], currentItemId := some 3 }

/-- Witness for C10 at a concrete populated state. -/
theorem partialize_spec_witness :
    (partializeState stateFull).currentItemId = none ∧
    ((partializeItem itemFull).referenceImages = none ∧
     (partializeItem itemFull).finalImage = none ∧
     (partializeItem itemFull).finalImages = none ∧
     (partializeItem itemFull).interimImages = none ∧
     (partializeItem itemFull).thoughtTexts = none) :=
  ⟨(partialize_spec stateFull).1,
   (partialize_spec stateFull).2 (partializeItem itemFull) (by decide)⟩

/-! ## C9: startup rehydration -/

/-- **C9.**  On rehydration every persisted `generating` item is
demoted to `pending` with progress, message and start timestamp
cleared; items in any other status are left unchanged; afterwards no
item is `generating`; and in the running orchestrator an item becomes
`generating` only through the pickup transition
(`startProcessing` on the oldest pending item under a released
guard). -/
theorem rehydration_spec :
    (∀ item : QueueItem, item.status = QueueItemStatus.generating →
        rehydrateItem item =
          { item with
            status := QueueItemStatus.pending
            progress := none
            statusMessage := none
            startedAt := none }) ∧
    (∀ item : QueueItem, item.status ≠ QueueItemStatus.generating →
        rehydrateItem item = item) ∧
    (∀ q : QueueState, generatingCount (rehydrateState q) = 0) ∧
    (∀ s s' : OrchState, OrchStep s s' →
        ∀ it' ∈ s'.queue.items, it'.status = QueueItemStatus.generating →
          (∃ it ∈ s.queue.items, it.id = it'.id ∧ it.status = QueueItemStatus.generating) ∨
          (s.isProcessing = false ∧ ∃ item now, getNextPending s.queue = some item ∧
            s' = { queue := startProcessing item.id now s.queue, isProcessing := true })) := by
  refine ⟨?_, ?_, ?_, ?_⟩
  · intro item h
    simp [rehydrateItem, h]
  · intro item h
    simp [rehydrateItem, h]
  · intro q
    unfold generatingCount rehydrateState
    simp only [List.countP_map]
    rw [List.countP_eq_zero]
    intro a _
    by_cases h : a.status = QueueItemStatus.generating <;>
      simp [Function.comp, rehydrateItem, h]
  · intro s s' hstep it' hmem hgen
    cases hstep with
    | enqueue data id now hfresh =>
      left
      simp only [addItem, List.mem_append, List.mem_singleton] at hmem
      rcases hmem with h | h
      · exact ⟨it', h, rfl, hgen⟩
      · rw [h] at hgen
        exact absurd hgen (by simp)
    | pickup item now hguard hnext =>
      right
      exact ⟨hguard, item, now, hnext, rfl⟩
    | cbProgress id p m =>
      left
      simp only [setStatusMessage, updateProgress] at hmem
      rcases updateById_gen_source hmem hgen (fun _ => rfl) (fun _ h => h) with ⟨it1, h1, hid1, hst1⟩
      rcases updateById_gen_source h1 hst1 (fun _ => rfl) (fun _ h => h) with ⟨it2, h2, hid2, hst2⟩
      exact ⟨it2, h2, hid2.trans hid1, hst2⟩
    | cbThought id t =>
      left
      simp only [addThoughtText] at hmem
      exact updateById_gen_source hmem hgen (fun _ => rfl) (fun _ h => h)
    | cbInterim id d =>
      left
      simp only [addInterimImage] at hmem
      exact updateById_gen_source hmem hgen (fun _ => rfl) (fun _ h => h)
    | cbFinal id elapsed now d hcur =>
      left
      simp only [completeItem] at hmem
      exact updateById_gen_source hmem hgen (fun _ => rfl) (fun _ h => by simp at h)
    | cbError id now m hcur =>
      left
      simp only [failItem] at hmem
      exact updateById_gen_source hmem hgen (fun _ => rfl) (fun _ h => by simp at h)
    | cbFinalLate id elapsed now d hcur =>
      left
      simp only [completeItem] at hmem
      exact updateById_gen_source hmem hgen (fun _ => rfl) (fun _ h => by simp at h)
    | cbErrorLate id now m hcur =>
      left
      simp only [failItem] at hmem
      exact updateById_gen_source hmem hgen (fun _ => rfl) (fun _ h => by simp at h)
    | finish hcur =>
      left
      exact ⟨it', hmem, rfl, hgen⟩
    | remove id =>
      left
      simp only [removeItem] at hmem
      exact ⟨it', (List.mem_filter.mp hmem).1, rfl, hgen⟩
    | clearDone =>
      left
      simp only [clearCompleted] at hmem
      exact ⟨it', (List.mem_filter.mp hmem).1, rfl, hgen⟩
    | reset =>
      left
      simp only [clearAll, List.not_mem_nil] at hmem

/-- Witness for C9: demotion of a concrete in-flight item. -/
theorem rehydration_spec_witness :
    rehydrateItem itemFull =
      { itemFull with
        status := QueueItemStatus.pending
        progress := none
        statusMessage := none
        startedAt := none } :=
  rehydration_spec.1 itemFull rfl

/-! ## C2: attempt counts of the adapters -/

theorem trackSameError_attempt (st : GoogleRetryState) (tag : String) :
    (trackSameError st tag).attempt = st.attempt := by
  unfold trackSameError
  split <;> rfl

theorem resetErrorTracking_attempt (st : GoogleRetryState) :
    (resetErrorTracking st).attempt = st.attempt := rfl

theorem googleLoop_attempt_le (decode : List Char → List GenerationPart)
    (env : Nat → FetchOutcome) :
    ∀ (fuel : Nat) (st : GoogleRetryState),
      (googleLoop decode env fuel st).2.1.attempt ≤ st.attempt + fuel := by
  intro fuel
  induction fuel with
  | zero => intro st; simp [googleLoop]
  | succ n ih =>
    intro st
    rw [googleLoop]
    cases h : env (st.attempt + 1) with
    | fetchThrow e =>
      dsimp only
      split
      · dsimp only
        have := ih (trackSameError { st with attempt := st.attempt + 1 } "network")
        rw [trackSameError_attempt] at this
        dsimp only at this
        omega
      · dsimp only
        omega
    | httpError status message =>
      dsimp only
      split
      · dsimp only
        have := ih (trackSameError { st with attempt := st.attempt + 1 }
          ("http_" ++ toString status))
        rw [trackSameError_attempt] at this
        dsimp only at this
        omega
      · dsimp only
        omega
    | noBody =>
      dsimp only
      have := ih (trackSameError (resetErrorTracking { st with attempt := st.attempt + 1 })
        "no_body")
      rw [trackSameError_attempt, resetErrorTracking_attempt] at this
      dsimp only at this
      omega
    | stream chunks =>
      dsimp only
      split
      · dsimp only [resetErrorTracking]
        omega
      · dsimp only
        have := ih (trackSameError (resetErrorTracking { st with attempt := st.attempt + 1 })
          "no_image")
        rw [trackSameError_attempt, resetErrorTracking_attempt] at this
        dsimp only at this
        omega

theorem googleLoop_attempt_ge (decode : List Char → List GenerationPart)
    (env : Nat → FetchOutcome) :
    ∀ (fuel : Nat) (st : GoogleRetryState),
      st.attempt ≤ (googleLoop decode env fuel st).2.1.attempt := by
  intro fuel
  induction fuel with
  | zero => intro st; simp [googleLoop]
  | succ n ih =>
    intro st
    rw [googleLoop]
    cases h : env (st.attempt + 1) with
    | fetchThrow e =>
      dsimp only
      split
      · dsimp only
        have := ih (trackSameError { st with attempt := st.attempt + 1 } "network")
        rw [trackSameError_attempt] at this
        dsimp only at this
        omega
      · dsimp only
        omega
    | httpError status message =>
      dsimp only
      split
      · dsimp only
        have := ih (trackSameError { st with attempt := st.attempt + 1 }
          ("http_" ++ toString status))
        rw [trackSameError_attempt] at this
        dsimp only at this
        omega
      · dsimp only
        omega
    | noBody =>
      dsimp only
      have := ih (trackSameError (resetErrorTracking { st with attempt := st.attempt + 1 })
        "no_body")
      rw [trackSameError_attempt, resetErrorTracking_attempt] at this
      dsimp only at this
      omega
    | stream chunks =>
      dsimp only
      split
      · dsimp only [resetErrorTracking]
        omega
      · dsimp only
        have := ih (trackSameError (resetErrorTracking { st with attempt := st.attempt + 1 })
          "no_image")
        rw [trackSameError_attempt, resetErrorTracking_attempt] at this
        dsimp only at this
        omega

theorem googleLoop_attempt_pos (decode : List Char → List GenerationPart)
    (env : Nat → FetchOutcome) (fuel : Nat) (st : GoogleRetryState) (hf : 0 < fuel) :
    st.attempt + 1 ≤ (googleLoop decode env fuel st).2.1.attempt := by
  cases fuel with
  | zero => omega
  | succ n =>
    rw [googleLoop]
    cases h : env (st.attempt + 1) with
    | fetchThrow e =>
      dsimp only
      split
      · dsimp only
        have := googleLoop_attempt_ge decode env n
          (trackSameError { st with attempt := st.attempt + 1 } "network")
        rw [trackSameError_attempt] at this
        dsimp only at this
        omega
      · dsimp only
        omega
    | httpError status message =>
      dsimp only
      split
      · dsimp only
        have := googleLoop_attempt_ge decode env n
          (trackSameError { st with attempt := st.attempt + 1 } ("http_" ++ toString status))
        rw [trackSameError_attempt] at this
        dsimp only at this
        omega
      · dsimp only
        omega
    | noBody =>
      dsimp only
      have := googleLoop_attempt_ge decode env n
        (trackSameError (resetErrorTracking { st with attempt := st.attempt + 1 }) "no_body")
      rw [trackSameError_attempt, resetErrorTracking_attempt] at this
      dsimp only at this
      omega
    | stream chunks =>
      dsimp only
      split
      · dsimp only [resetErrorTracking]
        omega
      · dsimp only
        have := googleLoop_attempt_ge decode env n
          (trackSameError (resetErrorTracking { st with attempt := st.attempt + 1 }) "no_image")
        rw [trackSameError_attempt, resetErrorTracking_attempt] at this
        dsimp only at this
        omega

/-- The scenario stream's final-image line as a single chunk. -/
def chunkFinal : List Char := ("data: EV-FINAL\n").toList

/-- An environment whose first fetch is a retryable 500 and whose
second delivers a successful stream. -/
def envRetryOnce : Nat → FetchOutcome := fun k =>
  if k = 1 then FetchOutcome.httpError 500 "API error: 500"
  else FetchOutcome.stream [chunkFinal]

/-- Counterexample to C2 as stated: on a retryable 500 followed by a
success, a single invocation of the rich-streaming Google adapter
performs two generation fetches — it retries internally. -/
theorem google_adapter_retries_internally :
    (googleRun decodeScenario envRetryOnce).attempts = 2 ∧
    isRetryableError none (some 500) = true := by
  constructor
  · decide
  · decide

/-- **C2 (amended).**  The edit-capable (OpenAI) and flat-request
(BytePlus) adapters perform exactly one generation fetch per invocation
and never retry internally; the rich-streaming (Google) adapter
performs between 1 and `MAX_RETRIES = 100` fetches per invocation,
retrying internally with backoff until success, a fatal error or the
attempt ceiling. -/
theorem adapter_attempt_policy :
    (∀ o : FlatOutcome, (openaiRun o).attempts = 1) ∧
    (∀ o : FlatOutcome, (byteplusRun o).attempts = 1) ∧
    (∀ (decode : List Char → List GenerationPart) (env : Nat → FetchOutcome),
        1 ≤ (googleRun decode env).attempts ∧
        (googleRun decode env).attempts ≤ MAX_RETRIES) := by
  refine ⟨?_, ?_, ?_⟩
  · intro o
    cases o with
    | fetchThrow e => rfl
    | httpError s m => rfl
    | noData => rfl
    | data0 b64 url uf =>
      cases hb : jsStr b64 with
      | none =>
        cases hu : jsStr url with
        | none => simp [openaiRun, hb, hu]
        | some u => cases uf <;> simp [openaiRun, hb, hu]
      | some b => simp [openaiRun, hb]
  · intro o
    cases o with
    | fetchThrow e => rfl
    | httpError s m => rfl
    | noData => rfl
    | data0 b64 url uf =>
      cases hb : jsStr b64 with
      | none =>
        cases hu : jsStr url with
        | none => simp [byteplusRun, hb, hu]
        | some u => cases uf <;> simp [byteplusRun, hb, hu]
      | some b => simp [byteplusRun, hb]
  · intro decode env
    constructor
    · have := googleLoop_attempt_pos decode env MAX_RETRIES ⟨0, 0, ""⟩
        (by norm_num [MAX_RETRIES])
      simpa [googleRun] using this
    · have := googleLoop_attempt_le decode env MAX_RETRIES ⟨0, 0, ""⟩
      simpa [googleRun] using this

/-! ## C3: retryable errors and the attempt ceiling -/

/-- The event kinds the streaming parser can emit (progress, thought,
interim, final — never error/complete/sleep). -/
def parserEv : Ev → Bool
  | Ev.progress _ _ => true
  | Ev.thought _ => true
  | Ev.interim _ => true
  | Ev.final _ => true
  | Ev.error _ => false
  | Ev.complete => false
  | Ev.sleep _ => false

theorem handlePart_events (st : SSEState) (part : GenerationPart) :
    ∀ e ∈ (handlePart st part).2, parserEv e = true := by
  by_cases ht : part.thought <;>
    cases h1 : jsStr part.text <;> cases h2 : jsStr part.inlineData <;>
    simp [handlePart, h1, h2, ht, parserEv]

theorem handleParts_events (st : SSEState) (parts : List GenerationPart) :
    ∀ e ∈ (handleParts st parts).2, parserEv e = true :=
  foldEvents_rel handlePart (fun _ _ evs => ∀ e ∈ evs, parserEv e = true)
    (fun _ => by simp)
    (fun _ _ _ e1 e2 h1 h2 => by
      intro e he
      rcases List.mem_append.mp he with hh | hh
      exacts [h1 e hh, h2 e hh])
    (fun a p => handlePart_events a p) parts st

theorem handleLine_events (decode : List Char → List GenerationPart) (st : SSEState)
    (line : List Char) : ∀ e ∈ (handleLine decode st line).2, parserEv e = true := by
  unfold handleLine
  split
  · split
    · simp
    · exact handleParts_events st _
  · simp

theorem handleLines_events (decode : List Char → List GenerationPart) (st : SSEState)
    (ls : List (List Char)) : ∀ e ∈ (handleLines decode st ls).2, parserEv e = true :=
  foldEvents_rel (handleLine decode) (fun _ _ evs => ∀ e ∈ evs, parserEv e = true)
    (fun _ => by simp)
    (fun _ _ _ e1 e2 h1 h2 => by
      intro e he
      rcases List.mem_append.mp he with hh | hh
      exacts [h1 e hh, h2 e hh])
    (fun a l => handleLine_events decode a l) ls st

theorem handleChunk_events (decode : List Char → List GenerationPart) (st : SSEState)
    (chunk : List Char) : ∀ e ∈ (handleChunk decode st chunk).2, parserEv e = true := by
  rw [handleChunk_eq]
  exact handleLines_events decode _ _

theorem processChunks_events (decode : List Char → List GenerationPart) (st : SSEState)
    (chunks : List (List Char)) : ∀ e ∈ (processChunks decode st chunks).2, parserEv e = true :=
  foldEvents_rel (handleChunk decode) (fun _ _ evs => ∀ e ∈ evs, parserEv e = true)
    (fun _ => by simp)
    (fun _ _ _ e1 e2 h1 h2 => by
      intro e he
      rcases List.mem_append.mp he with hh | hh
      exacts [h1 e hh, h2 e hh])
    (fun a c => handleChunk_events decode a c) chunks st

/-- The `onError` calls of a trace. -/
def errorEvents (evs : List Ev) : List Ev :=
  evs.filter (fun e =>
    match e with
    | Ev.error _ => true
    | _ => false)

theorem errorEvents_append (a b : List Ev) :
    errorEvents (a ++ b) = errorEvents a ++ errorEvents b := by
  simp [errorEvents]

theorem errorEvents_of_stream_events (evs : List Ev) (h : ∀ e ∈ evs, parserEv e = true) :
    errorEvents evs = [] := by
  rw [errorEvents, List.filter_eq_nil_iff]
  intro e he
  have := h e he
  cases e <;> simp_all [parserEv]

/-- An environment outcome the Google adapter classifies as retryable
(relative to the decoding oracle): a retryable thrown error, a
retryable HTTP status, a missing body, or a stream that yields no final
image. -/
def RetryableOutcome (decode : List Char → List GenerationPart) : FetchOutcome → Prop
  | FetchOutcome.fetchThrow e => isRetryableError (some e) none = true
  | FetchOutcome.httpError status _ => isRetryableError none (some status) = true
  | FetchOutcome.noBody => True
  | FetchOutcome.stream chunks =>
      (processChunks decode initSSE chunks).1.hasFinalImage = false

/-- The distinct message of the exhausted-retries `onError`. -/
def maxRetriesMessage : String :=
  s!"최대 재시도 횟수({MAX_RETRIES}회)를 초과했습니다. 나중에 다시 시도해주세요."

theorem googleLoop_all_retryable (decode : List Char → List GenerationPart)
    (env : Nat → FetchOutcome) :
    ∀ (fuel : Nat) (st : GoogleRetryState),
      (∀ k, st.attempt < k → k ≤ st.attempt + fuel → RetryableOutcome decode (env k)) →
      (googleLoop decode env fuel st).2.1.attempt = st.attempt + fuel ∧
      (googleLoop decode env fuel st).2.2 = false ∧
      errorEvents (googleLoop decode env fuel st).1 = [Ev.error maxRetriesMessage] := by
  intro fuel
  induction fuel with
  | zero =>
    intro st _
    refine ⟨by simp [googleLoop], by simp [googleLoop], ?_⟩
    simp [googleLoop, errorEvents, maxRetriesMessage]
  | succ n ih =>
    intro st h
    have hk := h (st.attempt + 1) (by omega) (by omega)
    rw [googleLoop]
    cases henv : env (st.attempt + 1) with
    | fetchThrow e =>
      rw [henv] at hk
      simp only [RetryableOutcome] at hk
      dsimp only
      rw [if_pos hk]
      dsimp only
      have ih1 := ih (trackSameError { st with attempt := st.attempt + 1 } "network") ?_
      case succ.fetchThrow.refine_1 =>
        intro k h1 h2
        rw [trackSameError_attempt] at h1 h2
        dsimp only at h1 h2
        exact h k (by omega) (by omega)
      refine ⟨?_, ih1.2.1, ?_⟩
      · rw [ih1.1, trackSameError_attempt]
        dsimp only
        omega
      · rw [errorEvents_append, errorEvents_append, ih1.2.2]
        have hhead : errorEvents
            (if 1 < st.attempt + 1 then
              [Ev.progress 5
                s!"재시도 중... ({st.attempt + 1}회, 동일 오류 {st.consecutiveSameErrors}회)"]
            else [Ev.progress 5 "API 연결 중..."]) = [] := by
          split <;> simp [errorEvents]
        rw [hhead]
        simp [errorEvents]
    | httpError status message =>
      rw [henv] at hk
      simp only [RetryableOutcome] at hk
      dsimp only
      rw [if_pos hk]
      dsimp only
      have ih1 := ih (trackSameError { st with attempt := st.attempt + 1 }
        ("http_" ++ toString status)) ?_
      case succ.httpError.refine_1 =>
        intro k h1 h2
        rw [trackSameError_attempt] at h1 h2
        dsimp only at h1 h2
        exact h k (by omega) (by omega)
      refine ⟨?_, ih1.2.1, ?_⟩
      · rw [ih1.1, trackSameError_attempt]
        dsimp only
        omega
      · rw [errorEvents_append, errorEvents_append, ih1.2.2]
        have hhead : errorEvents
            (if 1 < st.attempt + 1 then
              [Ev.progress 5
                s!"재시도 중... ({st.attempt + 1}회, 동일 오류 {st.consecutiveSameErrors}회)"]
            else [Ev.progress 5 "API 연결 중..."]) = [] := by
          split <;> simp [errorEvents]
        rw [hhead]
        simp [errorEvents]
    | noBody =>
      dsimp only
      have ih1 := ih (trackSameError (resetErrorTracking { st with attempt := st.attempt + 1 })
        "no_body") ?_
      case succ.noBody.refine_1 =>
        intro k h1 h2
        rw [trackSameError_attempt, resetErrorTracking_attempt] at h1 h2
        dsimp only at h1 h2
        exact h k (by omega) (by omega)
      refine ⟨?_, ih1.2.1, ?_⟩
      · rw [ih1.1, trackSameError_attempt, resetErrorTracking_attempt]
        dsimp only
        omega
      · rw [errorEvents_append, errorEvents_append, ih1.2.2]
        have hhead : errorEvents
            (if 1 < st.attempt + 1 then
              [Ev.progress 5
                s!"재시도 중... ({st.attempt + 1}회, 동일 오류 {st.consecutiveSameErrors}회)"]
            else [Ev.progress 5 "API 연결 중..."]) = [] := by
          split <;> simp [errorEvents]
        rw [hhead]
        simp [errorEvents]
    | stream chunks =>
      rw [henv] at hk
      simp only [RetryableOutcome] at hk
      dsimp only
      rw [if_neg (by simp [hk])]
      dsimp only
      have ih1 := ih (trackSameError (resetErrorTracking { st with attempt := st.attempt + 1 })
        "no_image") ?_
      case succ.stream.refine_1 =>
        intro k h1 h2
        rw [trackSameError_attempt, resetErrorTracking_attempt] at h1 h2
        dsimp only at h1 h2
        exact h k (by omega) (by omega)
      refine ⟨?_, ih1.2.1, ?_⟩
      · rw [ih1.1, trackSameError_attempt, resetErrorTracking_attempt]
        dsimp only
        omega
      · rw [errorEvents_append, errorEvents_append, errorEvents_append, errorEvents_append,
          ih1.2.2]
        have hhead : errorEvents
            (if 1 < st.attempt + 1 then
              [Ev.progress 5
                s!"재시도 중... ({st.attempt + 1}회, 동일 오류 {st.consecutiveSameErrors}회)"]
            else [Ev.progress 5 "API 연결 중..."]) = [] := by
          split <;> simp [errorEvents]
        have hconn : errorEvents
            [if 1 < st.attempt + 1 then
              Ev.progress 10 s!"스트림 연결됨 (재시도 {st.attempt + 1})"
            else Ev.progress 10 "스트림 연결됨"] = [] := by
          split <;> simp [errorEvents]
        have hp : errorEvents (processChunks decode initSSE chunks).2 = [] :=
          errorEvents_of_stream_events _ (processChunks_events decode initSSE chunks)
        rw [hhead, hconn, hp]
        simp [errorEvents]

/-- A freshly enqueued pending item and its store state, used by
concrete counterexamples. -/
def itemPending : QueueItem :=
  { id := 1, prompt := "a cat", referenceImages := none, resolution := "1K",
    aspectRatio := "1:1", model := "seedream", provider := "byteplus",
    status := QueueItemStatus.pending, createdAt := 0 }

/-- A store holding just the pending item. -/
def statePending : QueueState := { items := [itemPending], currentItemId := none }

/-- Counterexample to C3 as stated: HTTP 429 is retryable-classified,
yet the flat-request BytePlus adapter reports it through `onError` on
the very first attempt, and the orchestrator marks the item `error` —
far below the 100-attempt ceiling. -/
theorem byteplus_429_errors_immediately :
    isRetryableError none (some 429) = true ∧
    (byteplusRun (FlatOutcome.httpError 429 "API error: 429")).attempts = 1 ∧
    (byteplusRun (FlatOutcome.httpError 429 "API error: 429")).trace =
      [Ev.error "API error: 429"] ∧
    1 < MAX_RETRIES ∧
    (applyTrace 1 5 9 (startProcessing 1 5 statePending, true)
        (byteplusRun (FlatOutcome.httpError 429 "API error: 429")).trace).1.items.map
      QueueItem.status = [QueueItemStatus.error] := by
  refine ⟨by decide, by decide, by decide, by decide, by decide⟩

/-- **C3 (amended).**  Only the rich-streaming Google adapter defers
`error` on retryable failures: under an environment whose outcomes are
all retryable-classified, its invocation performs exactly the
100-attempt ceiling and the only `onError` it fires is the final
max-retries message; the edit-capable and flat-request adapters fire
`onError` on the first failed attempt, retryable or not. -/
theorem retryable_defer_only_google :
    (∀ (decode : List Char → List GenerationPart) (env : Nat → FetchOutcome),
        (∀ k, 1 ≤ k → k ≤ MAX_RETRIES → RetryableOutcome decode (env k)) →
        (googleRun decode env).attempts = MAX_RETRIES ∧
        errorEvents (googleRun decode env).trace = [Ev.error maxRetriesMessage]) ∧
    (∀ status message,
        (byteplusRun (FlatOutcome.httpError status message)).trace = [Ev.error message] ∧
        (byteplusRun (FlatOutcome.httpError status message)).attempts = 1) ∧
    (∀ status message,
        (openaiRun (FlatOutcome.httpError status message)).trace =
          [Ev.progress 10 "API 요청 중...", Ev.error message, Ev.complete] ∧
        (openaiRun (FlatOutcome.httpError status message)).attempts = 1) := by
  refine ⟨?_, ?_, ?_⟩
  · intro decode env h
    have hloop := googleLoop_all_retryable decode env MAX_RETRIES ⟨0, 0, ""⟩ ?_
    case refine_1.refine_1 =>
      intro k h1 h2
      exact h k (by omega) (by simpa using h2)
    constructor
    · show (googleLoop decode env MAX_RETRIES ⟨0, 0, ""⟩).2.1.attempt = MAX_RETRIES
      rw [hloop.1]
      rfl
    · show errorEvents (if (googleLoop decode env MAX_RETRIES ⟨0, 0, ""⟩).2.2 then _ else _) = _
      rw [hloop.2.1]
      simp only [Bool.false_eq_true, if_false]
      rw [errorEvents_append, hloop.2.2]
      simp [errorEvents]
  · intro status message
    exact ⟨rfl, rfl⟩
  · intro status message
    exact ⟨rfl, rfl⟩

/-- An environment that answers every attempt with HTTP 500. -/
def env500 : Nat → FetchOutcome := fun _ => FetchOutcome.httpError 500 "API error: 500"

/-- Witness for the amended C3: under uniform 500s the Google adapter
performs exactly the 100-attempt ceiling. -/
theorem retryable_defer_only_google_witness :
    (googleRun decodeScenario env500).attempts = MAX_RETRIES :=
  (retryable_defer_only_google.1 decodeScenario env500
    (fun _ _ _ => by
      show isRetryableError none (some 500) = true
      decide)).1

/-! ## C4: fatal errors fail the item immediately -/

theorem failItem_status (s : QueueState) (id : Nat) (m : String) (now : Nat) :
    ∀ it ∈ (failItem id m now s).items, it.id = id →
      it.status = QueueItemStatus.error ∧ it.error = some m := by
  intro it hmem hid
  simp only [failItem] at hmem
  rcases mem_updateById hmem with ⟨it0, _, heq⟩
  by_cases h0 : it0.id = id
  · rw [if_pos h0] at heq
    rw [heq]
    exact ⟨rfl, rfl⟩
  · rw [if_neg h0] at heq
    rw [heq] at hid
    exact absurd hid h0

/-- **C4.**  A fatal-classified HTTP error (any status `isRetryableError`
rejects — 4xx other than 429, including malformed-request and
authentication failures) makes the adapter call `onError` immediately:
one attempt, no sleep, no retry; and applying the resulting trace to
the orchestrator marks the picked item `error` with that message. -/
theorem fatal_error_immediate (decode : List Char → List GenerationPart)
    (env : Nat → FetchOutcome) (status : Nat) (message : String)
    (henv : env 1 = FetchOutcome.httpError status message)
    (hfatal : isRetryableError none (some status) = false) :
    (googleRun decode env).trace =
      [Ev.progress 5 "API 연결 중...", Ev.error message, Ev.complete] ∧
    (googleRun decode env).attempts = 1 ∧
    (∀ (qs : QueueState) (id t0 startTime now : Nat),
      (applyTrace id startTime now (startProcessing id t0 qs, true)
          (googleRun decode env).trace).2 = false ∧
      ∀ it ∈ (applyTrace id startTime now (startProcessing id t0 qs, true)
          (googleRun decode env).trace).1.items,
        it.id = id → it.status = QueueItemStatus.error ∧ it.error = some message) := by
  have hrun : googleRun decode env =
      { trace := [Ev.progress 5 "API 연결 중...", Ev.error message, Ev.complete]
        attempts := 1 } := by
    unfold googleRun
    rw [show MAX_RETRIES = 99 + 1 from rfl, googleLoop]
    dsimp only
    rw [show (0 : Nat) + 1 = 1 from rfl, henv]
    dsimp only
    simp [hfatal]
  refine ⟨by rw [hrun], by rw [hrun], ?_⟩
  intro qs id t0 startTime now
  rw [hrun]
  constructor
  · rfl
  · show ∀ it ∈ (failItem id message now
        (setStatusMessage id "API 연결 중..."
          (updateProgress id 5 (startProcessing id t0 qs)))).items, _
    exact failItem_status _ id message now

/-- An environment that always answers with a fatal 400. -/
def envFatal : Nat → FetchOutcome := fun _ => FetchOutcome.httpError 400 "Invalid request"

/-- Witness for C4 at a concrete fatal response. -/
theorem fatal_error_immediate_witness :
    (googleRun decodeScenario envFatal).trace =
      [Ev.progress 5 "API 연결 중...", Ev.error "Invalid request", Ev.complete] :=
  (fatal_error_immediate decodeScenario envFatal 400 "Invalid request" rfl (by decide)).1

/-! ## C7: consecutive-same-tag failure counting -/

theorem trackSameError_same (st : GoogleRetryState) (tag : String)
    (h : tag = st.lastErrorType) :
    trackSameError st tag =
      { st with consecutiveSameErrors := st.consecutiveSameErrors + 1 } := by
  unfold trackSameError
  rw [if_pos h]

theorem trackSameError_diff (st : GoogleRetryState) (tag : String)
    (h : tag ≠ st.lastErrorType) :
    trackSameError st tag = { st with consecutiveSameErrors := 1, lastErrorType := tag } := by
  unfold trackSameError
  rw [if_neg h]

/-- An environment whose every stream completes without a final image
(the `no_image` retry path). -/
def envNoImage : Nat → FetchOutcome := fun _ => FetchOutcome.stream []

set_option maxRecDepth 4000 in
/-- Counterexample to C7 as stated: two consecutive failed attempts
both classified `no_image` (equal tags), yet the counter after the
second failure is still 1, not one greater than after the first — the
response-ok reset runs before the tracking on every post-response
failure.  (`googleLoop … k ⟨0,0,""⟩` returns the retry state after the
loop's first `k` iterations, since exhausted fuel returns the state
unchanged.) -/
theorem same_tag_counter_not_incremented :
    (googleLoop decodeScenario envNoImage 1 ⟨0, 0, ""⟩).2.1 =
      { attempt := 1, consecutiveSameErrors := 1, lastErrorType := "no_image" } ∧
    (googleLoop decodeScenario envNoImage 2 ⟨0, 0, ""⟩).2.1 =
      { attempt := 2, consecutiveSameErrors := 1, lastErrorType := "no_image" } ∧
    (googleLoop decodeScenario envNoImage MAX_RETRIES ⟨0, 0, ""⟩).2.1 =
      { attempt := 100, consecutiveSameErrors := 1, lastErrorType := "no_image" } := by
  refine ⟨by decide, by decide, by decide⟩

theorem googleLoop_500_accumulates :
    ∀ (n : Nat) (st : GoogleRetryState), st.lastErrorType = "http_500" →
      (googleLoop decodeScenario env500 n st).2.1.consecutiveSameErrors =
        st.consecutiveSameErrors + n := by
  intro n
  induction n with
  | zero => intro st _; simp [googleLoop]
  | succ m ih =>
    intro st h
    rw [googleLoop]
    simp only [env500]
    rw [if_pos (by decide : isRetryableError none (some 500) = true)]
    dsimp only
    rw [trackSameError_same _ _ (by dsimp only; rw [h]; rfl)]
    dsimp only
    rw [ih { attempt := st.attempt + 1
             consecutiveSameErrors := st.consecutiveSameErrors + 1
             lastErrorType := st.lastErrorType } h]
    dsimp only
    omega

/-- **C7 (amended).**  `trackSameError` increments the counter across
equal-tag failures and resets it to 1 (recording the new tag) on a tag
change, and an ok response resets the tracking to zero/`""` — but that
response-ok reset runs *before* the post-response failure paths, so the
`no_body` and `no_image` tags always see cleared tracking and their
counter is 1 regardless of history; only pre-response failures
(`http_*`, `network`) accumulate, e.g. uniform 500s drive the counter
to `n` after `n` attempts. -/
theorem consecutive_same_error_tracking :
    (∀ (st : GoogleRetryState) (tag : String), tag = st.lastErrorType →
        (trackSameError st tag).consecutiveSameErrors = st.consecutiveSameErrors + 1) ∧
    (∀ (st : GoogleRetryState) (tag : String), tag ≠ st.lastErrorType →
        (trackSameError st tag).consecutiveSameErrors = 1 ∧
        (trackSameError st tag).lastErrorType = tag) ∧
    (∀ st : GoogleRetryState,
        (resetErrorTracking st).consecutiveSameErrors = 0 ∧
        (resetErrorTracking st).lastErrorType = "") ∧
    (∀ (st : GoogleRetryState) (tag : String), tag ≠ "" →
        (trackSameError (resetErrorTracking st) tag).consecutiveSameErrors = 1) ∧
    (∀ n : Nat,
        (googleLoop decodeScenario env500 n ⟨0, 0, ""⟩).2.1.consecutiveSameErrors = n) := by
  refine ⟨?_, ?_, ?_, ?_, ?_⟩
  · intro st tag h
    rw [trackSameError_same st tag h]
  · intro st tag h
    rw [trackSameError_diff st tag h]
    exact ⟨rfl, rfl⟩
  · intro st
    exact ⟨rfl, rfl⟩
  · intro st tag h
    rw [trackSameError_diff _ tag (by simpa [resetErrorTracking] using h)]
  · intro n
    cases n with
    | zero => decide
    | succ m =>
      rw [googleLoop]
      simp only [env500]
      rw [if_pos (by decide : isRetryableError none (some 500) = true)]
      dsimp only
      rw [trackSameError_diff _ _ (by decide)]
      rw [googleLoop_500_accumulates m _ rfl]
      dsimp only
      omega

/-- Witness for the amended C7: a same-tag increment, a tag change, and
three uniform-500 attempts accumulating to 3. -/
theorem consecutive_same_error_tracking_witness :
    (trackSameError ⟨4, 2, "http_500"⟩ "http_500").consecutiveSameErrors = 2 + 1 ∧
    (trackSameError ⟨4, 2, "http_500"⟩ "network").consecutiveSameErrors = 1 ∧
    (googleLoop decodeScenario env500 3 ⟨0, 0, ""⟩).2.1.consecutiveSameErrors = 3 :=
  ⟨consecutive_same_error_tracking.1 ⟨4, 2, "http_500"⟩ "http_500" rfl,
   (consecutive_same_error_tracking.2.1 ⟨4, 2, "http_500"⟩ "network" (by decide)).1,
   consecutive_same_error_tracking.2.2.2.2 3⟩

/-! ## C8: transient state across retries -/

/-- An environment whose first attempt streams a thought but no final
image (so the adapter retries internally) and whose second attempt
streams a thought and a final image. -/
def envThoughtRetry : Nat → FetchOutcome := fun k =>
  if k = 1 then FetchOutcome.stream [("data: EV-THOUGHT\n").toList]
  else FetchOutcome.stream [("data: EV-THOUGHT\ndata: EV-FINAL\n").toList]

set_option maxRecDepth 4000 in
/-- Counterexample to C8 as stated: after a failed first attempt and an
internally retried successful second attempt of a single adapter
invocation, the completed item's `thoughtTexts` holds the fragments of
*both* attempts — the prior failed attempt's state was not cleared
before the retry began. -/
theorem thoughts_not_cleared_across_internal_retries :
    (applyTrace 1 5 9 (startProcessing 1 5 statePending, true)
        (googleRun decodeScenario envThoughtRetry).trace).1.items.map
      QueueItem.thoughtTexts = [some ["hello", "hello"]] ∧
    (applyTrace 1 5 9 (startProcessing 1 5 statePending, true)
        (googleRun decodeScenario envThoughtRetry).trace).1.items.map
      QueueItem.status = [QueueItemStatus.completed] := by
  refine ⟨by decide, by decide⟩

/-- **C8 (amended).**  Transient per-item state is cleared exactly when
the orchestrator picks the item up: `startProcessing` resets the picked
item's `thoughtTexts` and `interimImages` to `[]` (with progress 0 and
a fresh start timestamp) and leaves every other item untouched.  The
rich-streaming adapter's internal retries perform no such clearing, so
fragments from a failed internal attempt survive into the next one. -/
theorem startProcessing_clears_transients (id now : Nat) (s : QueueState) :
    (∀ it ∈ (startProcessing id now s).items, it.id = id →
        it.thoughtTexts = some [] ∧ it.interimImages = some [] ∧
        it.status = QueueItemStatus.generating ∧ it.progress = some 0 ∧
        it.startedAt = some now) ∧
    (∀ it ∈ (startProcessing id now s).items, it.id ≠ id → it ∈ s.items) := by
  constructor
  · intro it hmem hid
    simp only [startProcessing] at hmem
    rcases mem_updateById hmem with ⟨it0, _, heq⟩
    by_cases h0 : it0.id = id
    · rw [if_pos h0] at heq
      rw [heq]
      exact ⟨rfl, rfl, rfl, rfl, rfl⟩
    · rw [if_neg h0] at heq
      rw [heq] at hid
      exact absurd hid h0
  · intro it hmem hid
    simp only [startProcessing] at hmem
    rcases mem_updateById hmem with ⟨it0, hm0, heq⟩
    by_cases h0 : it0.id = id
    · exfalso
      apply hid
      rw [heq, if_pos h0]
      exact h0
    · rw [if_neg h0] at heq
      rw [heq]
      exact hm0

/-- The pending item as `startProcessing 1 5` transforms it. -/
def itemStarted : QueueItem :=
  { itemPending with
    status := QueueItemStatus.generating
    progress := some 0
    statusMessage := some "요청 준비 중..."
    startedAt := some 5
    thoughtTexts := some []
    interimImages := some [] }

/-- Witness for the amended C8 at the concrete picked item. -/
theorem startProcessing_clears_transients_witness :
    itemStarted.thoughtTexts = some [] ∧ itemStarted.interimImages = some [] ∧
    itemStarted.status = QueueItemStatus.generating ∧ itemStarted.progress = some 0 ∧
    itemStarted.startedAt = some 5 :=
  (startProcessing_clears_transients 1 5 statePending).1 itemStarted (by decide) (by decide)

/-! ## C1: single-flight invariant -/

/-- The settle callbacks: `onFinalImage` and `onError`. -/
def settleEv : Ev → Bool
  | Ev.final _ => true
  | Ev.error _ => true
  | _ => false

/-- The `onComplete` callback. -/
def completeEv : Ev → Bool
  | Ev.complete => true
  | _ => false

/-- Events that are neither a settle nor an `onComplete`. -/
def neutralEv : Ev → Bool
  | Ev.progress _ _ => true
  | Ev.thought _ => true
  | Ev.interim _ => true
  | Ev.sleep _ => true
  | _ => false

/-- `onFinalImage` events. -/
def finalEv : Ev → Bool
  | Ev.final _ => true
  | _ => false

/-- Whether any settle event occurs. -/
def anySettle (evs : List Ev) : Bool := evs.any settleEv

/-- Whether any `onFinalImage` occurs. -/
def hasFinalEv (evs : List Ev) : Bool := evs.any finalEv

/-- Scanning check that every `onComplete` in a trace is preceded by a
settle callback, starting from the given already-settled flag. -/
def settledBefore : Bool → List Ev → Bool
  | _, [] => true
  | settled, e :: rest =>
    match e with
    | Ev.complete => settled && settledBefore settled rest
    | Ev.final _ => settledBefore true rest
    | Ev.error _ => settledBefore true rest
    | _ => settledBefore settled rest

theorem settledBefore_true : ∀ evs : List Ev, settledBefore true evs = true := by
  intro evs
  induction evs with
  | nil => rfl
  | cons e rest ih => cases e <;> simp [settledBefore, ih]

theorem settledBefore_append :
    ∀ (xs : List Ev) (b : Bool) (ys : List Ev),
      settledBefore b (xs ++ ys) =
        (settledBefore b xs && settledBefore (b || anySettle xs) ys) := by
  intro xs
  induction xs with
  | nil => intro b ys; simp [settledBefore, anySettle]
  | cons e rest ih =>
    intro b ys
    cases e <;>
      simp [settledBefore, anySettle, settleEv, ih, settledBefore_true, Bool.and_assoc]

theorem settledBefore_of_no_complete (evs : List Ev)
    (h : ∀ e ∈ evs, completeEv e = false) : ∀ b, settledBefore b evs = true := by
  induction evs with
  | nil => intro b; rfl
  | cons e rest ih =>
    intro b
    have he := h e (List.mem_cons_self e rest)
    have hr := fun e hh => h e (List.mem_cons_of_mem _ hh)
    cases e <;> simp_all [settledBefore, completeEv, ih hr]

theorem settledBefore_neutral_append (xs : List Ev)
    (h : ∀ e ∈ xs, neutralEv e = true) (b : Bool) (ys : List Ev) :
    settledBefore b (xs ++ ys) = settledBefore b ys := by
  induction xs with
  | nil => rfl
  | cons e rest ih =>
    have he := h e (List.mem_cons_self e rest)
    have hr := fun e hh => h e (List.mem_cons_of_mem _ hh)
    cases e <;> simp_all [settledBefore, neutralEv, ih hr]

theorem parserEv_not_complete (e : Ev) (h : parserEv e = true) : completeEv e = false := by
  cases e <;> simp_all [parserEv, completeEv]

theorem parserEv_neutral (e : Ev) (h : parserEv e = true) (hf : finalEv e = false) :
    neutralEv e = true := by
  cases e <;> simp_all [parserEv, finalEv, neutralEv]

theorem hasFinalEv_append (a b : List Ev) :
    hasFinalEv (a ++ b) = (hasFinalEv a || hasFinalEv b) := by
  simp [hasFinalEv]

theorem handlePart_hasFinal (st : SSEState) (part : GenerationPart) :
    (handlePart st part).1.hasFinalImage =
      (st.hasFinalImage || hasFinalEv (handlePart st part).2) := by
  by_cases ht : part.thought <;>
    cases h1 : jsStr part.text <;> cases h2 : jsStr part.inlineData <;>
    simp [handlePart, h1, h2, ht, hasFinalEv, finalEv]

theorem handleParts_hasFinal (st : SSEState) (parts : List GenerationPart) :
    (handleParts st parts).1.hasFinalImage =
      (st.hasFinalImage || hasFinalEv (handleParts st parts).2) :=
  foldEvents_rel handlePart
    (fun a b evs => b.hasFinalImage = (a.hasFinalImage || hasFinalEv evs))
    (fun _ => by simp [hasFinalEv])
    (fun _ _ _ e1 e2 h1 h2 => by
      dsimp only at h1 h2 ⊢
      rw [h2, h1, hasFinalEv_append, Bool.or_assoc])
    (fun a p => handlePart_hasFinal a p) parts st

theorem handleLine_hasFinal (decode : List Char → List GenerationPart) (st : SSEState)
    (line : List Char) :
    (handleLine decode st line).1.hasFinalImage =
      (st.hasFinalImage || hasFinalEv (handleLine decode st line).2) := by
  unfold handleLine
  split
  · split
    · simp [hasFinalEv]
    · exact handleParts_hasFinal st _
  · simp [hasFinalEv]

theorem handleLines_hasFinal (decode : List Char → List GenerationPart) (st : SSEState)
    (ls : List (List Char)) :
    (handleLines decode st ls).1.hasFinalImage =
      (st.hasFinalImage || hasFinalEv (handleLines decode st ls).2) :=
  foldEvents_rel (handleLine decode)
    (fun a b evs => b.hasFinalImage = (a.hasFinalImage || hasFinalEv evs))
    (fun _ => by simp [hasFinalEv])
    (fun _ _ _ e1 e2 h1 h2 => by
      dsimp only at h1 h2 ⊢
      rw [h2, h1, hasFinalEv_append, Bool.or_assoc])
    (fun a l => handleLine_hasFinal decode a l) ls st

theorem handleChunk_hasFinal (decode : List Char → List GenerationPart) (st : SSEState)
    (chunk : List Char) :
    (handleChunk decode st chunk).1.hasFinalImage =
      (st.hasFinalImage || hasFinalEv (handleChunk decode st chunk).2) := by
  rw [handleChunk_eq]
  exact handleLines_hasFinal decode _ _

theorem processChunks_hasFinal (decode : List Char → List GenerationPart) (st : SSEState)
    (chunks : List (List Char)) :
    (processChunks decode st chunks).1.hasFinalImage =
      (st.hasFinalImage || hasFinalEv (processChunks decode st chunks).2) :=
  foldEvents_rel (handleChunk decode)
    (fun a b evs => b.hasFinalImage = (a.hasFinalImage || hasFinalEv evs))
    (fun _ => by simp [hasFinalEv])
    (fun _ _ _ e1 e2 h1 h2 => by
      dsimp only at h1 h2 ⊢
      rw [h2, h1, hasFinalEv_append, Bool.or_assoc])
    (fun a c => handleChunk_hasFinal decode a c) chunks st

theorem parserEv_no_settle (e : Ev) (h : parserEv e = true) (hf : finalEv e = false) :
    settleEv e = false := by
  cases e <;> simp_all [parserEv, finalEv, settleEv]

theorem neutral_no_complete (e : Ev) (h : neutralEv e = true) : completeEv e = false := by
  cases e <;> simp_all [neutralEv, completeEv]

theorem hasFinalEv_anySettle (evs : List Ev) (h : hasFinalEv evs = true) :
    anySettle evs = true := by
  rcases List.any_eq_true.mp h with ⟨e, he, hfe⟩
  exact List.any_eq_true.mpr ⟨e, he, by cases e <;> simp_all [finalEv, settleEv]⟩

theorem anySettle_append (a b : List Ev) :
    anySettle (a ++ b) = (anySettle a || anySettle b) := by
  simp [anySettle]

theorem ifHead_neutral {c : Prop} [Decidable c] (m1 m2 : String) :
    ∀ e ∈ (if c then [Ev.progress 5 m1] else [Ev.progress 5 m2]), neutralEv e = true := by
  intro e he
  split at he <;> simp_all [neutralEv]

theorem ifConn_neutral {c : Prop} [Decidable c] (m1 m2 : String) :
    ∀ e ∈ [if c then Ev.progress 10 m1 else Ev.progress 10 m2], neutralEv e = true := by
  intro e he
  rw [List.mem_singleton.mp he]
  split <;> rfl

theorem progSleep_neutral (x : Nat) (m : String) (q : ℚ) :
    ∀ e ∈ [Ev.progress x m, Ev.sleep q], neutralEv e = true := by
  intro e he
  fin_cases he <;> rfl

theorem settled_glue (XS YS : List Ev)
    (hy : settledBefore false YS = true)
    (hx : ∀ e ∈ XS, neutralEv e = true) :
    settledBefore false (XS ++ YS) = true := by
  rw [settledBefore_neutral_append XS hx false YS]
  exact hy

theorem settled_success (XS rest : List Ev)
    (hnc : ∀ e ∈ XS, completeEv e = false)
    (hs : anySettle XS = true)
    (hr : settledBefore true rest = true) :
    settledBefore false (XS ++ rest) = true := by
  rw [settledBefore_append, settledBefore_of_no_complete XS hnc false, hs]
  simpa using hr

theorem googleLoop_settled (decode : List Char → List GenerationPart)
    (env : Nat → FetchOutcome) :
    ∀ (fuel : Nat) (st : GoogleRetryState),
      ((googleLoop decode env fuel st).2.2 = true →
        settledBefore false (googleLoop decode env fuel st).1 = true) ∧
      ((googleLoop decode env fuel st).2.2 = false →
        settledBefore false ((googleLoop decode env fuel st).1 ++ [Ev.complete]) = true) := by
  intro fuel
  induction fuel with
  | zero =>
    intro st
    constructor
    · intro h
      simp [googleLoop] at h
    · intro _
      rfl
  | succ n ih =>
    intro st
    rw [googleLoop]
    cases henv : env (st.attempt + 1) with
    | fetchThrow e =>
      dsimp only
      split
      · dsimp only
        constructor
        · intro hc
          apply settled_glue _ _ ((ih _).1 hc)
          intro e' he'
          rcases List.mem_append.mp he' with h | h
          · exact ifHead_neutral _ _ e' h
          · exact progSleep_neutral _ _ _ e' h
        · intro hc
          rw [List.append_assoc]
          apply settled_glue _ _ ((ih _).2 hc)
          intro e' he'
          rcases List.mem_append.mp he' with h | h
          · exact ifHead_neutral _ _ e' h
          · exact progSleep_neutral _ _ _ e' h
      · dsimp only
        constructor
        · intro hc
          simp at hc
        · intro _
          rw [List.append_assoc]
          apply settled_glue _ _ (by rfl)
          intro e' he'
          exact ifHead_neutral _ _ e' he'
    | httpError status message =>
      dsimp only
      split
      · dsimp only
        constructor
        · intro hc
          apply settled_glue _ _ ((ih _).1 hc)
          intro e' he'
          rcases List.mem_append.mp he' with h | h
          · exact ifHead_neutral _ _ e' h
          · exact progSleep_neutral _ _ _ e' h
        · intro hc
          rw [List.append_assoc]
          apply settled_glue _ _ ((ih _).2 hc)
          intro e' he'
          rcases List.mem_append.mp he' with h | h
          · exact ifHead_neutral _ _ e' h
          · exact progSleep_neutral _ _ _ e' h
      · dsimp only
        constructor
        · intro hc
          simp at hc
        · intro _
          rw [List.append_assoc]
          apply settled_glue _ _ (by rfl)
          intro e' he'
          exact ifHead_neutral _ _ e' he'
    | noBody =>
      dsimp only
      constructor
      · intro hc
        apply settled_glue _ _ ((ih _).1 hc)
        intro e' he'
        rcases List.mem_append.mp he' with h | h
        · exact ifHead_neutral _ _ e' h
        · exact progSleep_neutral _ _ _ e' h
      · intro hc
        rw [List.append_assoc]
        apply settled_glue _ _ ((ih _).2 hc)
        intro e' he'
        rcases List.mem_append.mp he' with h | h
        · exact ifHead_neutral _ _ e' h
        · exact progSleep_neutral _ _ _ e' h
    | stream chunks =>
      dsimp only
      split
      · rename_i hfi
        dsimp only
        constructor
        · intro _
          apply settled_success
          · intro e' he'
            rcases List.mem_append.mp he' with h | h
            · rcases List.mem_append.mp h with h2 | h2
              · exact neutral_no_complete e' (ifHead_neutral _ _ e' h2)
              · exact neutral_no_complete e' (ifConn_neutral _ _ e' h2)
            · exact parserEv_not_complete e' (processChunks_events decode initSSE chunks e' h)
          · rw [anySettle_append]
            have : hasFinalEv (processChunks decode initSSE chunks).2 = true := by
              have hbit := processChunks_hasFinal decode initSSE chunks
              rw [hfi] at hbit
              simpa [initSSE] using hbit.symm
            rw [hasFinalEv_anySettle _ this]
            simp
          · rfl
        · intro hc
          simp at hc
      · rename_i hfi
        have hfe : hasFinalEv (processChunks decode initSSE chunks).2 = false := by
          have hbit := processChunks_hasFinal decode initSSE chunks
          rw [Bool.not_eq_true] at hfi
          rw [hfi] at hbit
          simpa [initSSE] using hbit.symm
        have hneu : ∀ (m1 m2 m3 m4 m5 : String) (q : ℚ), ∀ e' ∈ (((if 1 < st.attempt + 1 then
              [Ev.progress 5 m1]
            else [Ev.progress 5 m2]) ++
            [if 1 < st.attempt + 1 then
              Ev.progress 10 m3
            else Ev.progress 10 m4]) ++
            (processChunks decode initSSE chunks).2) ++
            [Ev.progress 5 m5, Ev.sleep q],
            neutralEv e' = true := by
          intro m1 m2 m3 m4 m5 q e' he'
          rcases List.mem_append.mp he' with h | h
          · rcases List.mem_append.mp h with h2 | h2
            · rcases List.mem_append.mp h2 with h3 | h3
              · exact ifHead_neutral _ _ e' h3
              · exact ifConn_neutral _ _ e' h3
            · refine parserEv_neutral e' (processChunks_events decode initSSE chunks e' h2) ?_
              rw [hasFinalEv] at hfe
              have := List.any_eq_false.mp hfe e' h2
              simpa using this
          · exact progSleep_neutral _ _ _ e' h
        dsimp only
        constructor
        · intro hc
          apply settled_glue _ _ ((ih _).1 hc)
          exact hneu _ _ _ _ _ _
        · intro hc
          rw [List.append_assoc]
          apply settled_glue _ _ ((ih _).2 hc)
          exact hneu _ _ _ _ _ _

/-- Every `onComplete` the Google adapter fires comes after the active
attempt has settled (an `onFinalImage` or an `onError`). -/
theorem googleRun_settles_before_complete (decode : List Char → List GenerationPart)
    (env : Nat → FetchOutcome) :
    settledBefore false (googleRun decode env).trace = true := by
  unfold googleRun
  dsimp only
  split
  · exact (googleLoop_settled decode env MAX_RETRIES ⟨0, 0, ""⟩).1 (by assumption)
  · exact (googleLoop_settled decode env MAX_RETRIES ⟨0, 0, ""⟩).2
      (by rename_i h; exact Bool.not_eq_true _ ▸ Bool.of_not_eq_true h)

/-- The OpenAI adapter also settles before every `onComplete`. -/
theorem openaiRun_settles_before_complete (o : FlatOutcome) :
    settledBefore false (openaiRun o).trace = true := by
  cases o with
  | fetchThrow e => rfl
  | httpError s m => rfl
  | noData => rfl
  | data0 b64 url uf =>
    cases hb : jsStr b64 with
    | none =>
      cases hu : jsStr url with
      | none => simp [openaiRun, hb, hu, settledBefore]
      | some u => cases uf <;> simp [openaiRun, hb, hu, settledBefore]
    | some b => simp [openaiRun, hb, settledBefore]

/-- The BytePlus adapter also settles before every `onComplete`. -/
theorem byteplusRun_settles_before_complete (o : FlatOutcome) :
    settledBefore false (byteplusRun o).trace = true := by
  cases o with
  | fetchThrow e => rfl
  | httpError s m => rfl
  | noData => rfl
  | data0 b64 url uf =>
    cases hb : jsStr b64 with
    | none =>
      cases hu : jsStr url with
      | none => simp [byteplusRun, hb, hu, settledBefore]
      | some u => cases uf <;> simp [byteplusRun, hb, hu, settledBefore]
    | some b => simp [byteplusRun, hb, settledBefore]

/-- `generatingCount` on a bare item list. -/
def genCountL (items : List QueueItem) : Nat :=
  items.countP (fun item => item.status = QueueItemStatus.generating)

theorem genCountL_zero_iff (items : List QueueItem) :
    genCountL items = 0 ↔ ∀ it ∈ items, it.status ≠ QueueItemStatus.generating := by
  simp [genCountL, List.countP_eq_zero]

theorem genCountL_updateById_eq {id : Nat} {g : QueueItem → QueueItem}
    (hgst : ∀ it, (g it).status = it.status) (items : List QueueItem) :
    genCountL (updateById id g items) = genCountL items := by
  unfold genCountL updateById
  rw [List.countP_map]
  apply List.countP_congr
  intro a _
  by_cases hid : a.id = id <;> simp [Function.comp, hid, hgst]

theorem genCountL_updateById_le {id : Nat} {g : QueueItem → QueueItem}
    (hgst : ∀ it, (g it).status ≠ QueueItemStatus.generating) (items : List QueueItem) :
    genCountL (updateById id g items) ≤ genCountL items := by
  unfold genCountL updateById
  rw [List.countP_map]
  apply List.countP_mono_left
  intro a _
  by_cases hid : a.id = id <;> simp [Function.comp, hid, hgst]

theorem genCountL_updateById_zero {id : Nat} {g : QueueItem → QueueItem}
    (hgst : ∀ it, (g it).status ≠ QueueItemStatus.generating) (items : List QueueItem)
    (hall : ∀ it ∈ items, it.status = QueueItemStatus.generating → it.id = id) :
    genCountL (updateById id g items) = 0 := by
  unfold genCountL updateById
  rw [List.countP_map, List.countP_eq_zero]
  intro a ha
  by_cases hid : a.id = id
  · simp [Function.comp, hid, hgst]
  · simp only [Function.comp, hid, if_neg hid]
    intro hgen
    exact absurd (hall a ha (by simpa using hgen)) hid

theorem countP_id_le_one {items : List QueueItem}
    (hnd : (items.map QueueItem.id).Nodup) (id0 : Nat) :
    items.countP (fun it => it.id = id0) ≤ 1 := by
  induction items with
  | nil => simp
  | cons it rest ih =>
    simp only [List.map_cons, List.nodup_cons] at hnd
    rw [List.countP_cons]
    by_cases h : it.id = id0
    · have hzero : rest.countP (fun it => it.id = id0) = 0 := by
        rw [List.countP_eq_zero]
        intro a ha
        simp only [decide_eq_true_eq]
        intro haid
        exact hnd.1 (haid.trans h.symm ▸ List.mem_map_of_mem QueueItem.id ha)
      simp [hzero, h]
    · simp [h]
      exact ih hnd.2

theorem genCountL_pickup {id : Nat} {g : QueueItem → QueueItem} (items : List QueueItem)
    (hnd : (items.map QueueItem.id).Nodup) (hzero : genCountL items = 0) :
    genCountL (updateById id g items) ≤ 1 := by
  unfold genCountL updateById
  rw [List.countP_map]
  calc items.countP (fun a => (if a.id = id then g a else a).status = QueueItemStatus.generating)
      ≤ items.countP (fun a => a.id = id) := by
        apply List.countP_mono_left
        intro a ha
        by_cases hid : a.id = id
        · simp [hid]
        · simp only [if_neg hid, decide_eq_true_eq]
          intro hgen
          exact absurd hgen ((genCountL_zero_iff items).mp hzero a ha)
    _ ≤ 1 := countP_id_le_one hnd id

theorem updateById_map_id (id : Nat) (g : QueueItem → QueueItem) (items : List QueueItem)
    (hgid : ∀ it, (g it).id = it.id) :
    (updateById id g items).map QueueItem.id = items.map QueueItem.id := by
  unfold updateById
  rw [List.map_map]
  apply List.map_congr_left
  intro a _
  by_cases hid : a.id = id <;> simp [Function.comp, hid, hgid]

theorem genCountL_filter_le (q : QueueItem → Bool) (items : List QueueItem) :
    genCountL (items.filter q) ≤ genCountL items :=
  (List.filter_sublist items).countP_le _

theorem genCountL_append (a b : List QueueItem) :
    genCountL (a ++ b) = genCountL a + genCountL b := by
  simp [genCountL, List.countP_append]

theorem addItem_map_id (data : ItemData) (id now : Nat) (q : QueueState) :
    (addItem data id now q).items.map QueueItem.id = q.items.map QueueItem.id ++ [id] := by
  simp [addItem]

theorem genCountL_addItem (data : ItemData) (id now : Nat) (q : QueueState) :
    genCountL (addItem data id now q).items = genCountL q.items := by
  simp [addItem, genCountL, List.countP_append]

/-- The inductive single-flight invariant: unique ids, at most one
`generating` item, none while the guard is down or no item is current,
and every `generating` item is the current one. -/
def InvQ (items : List QueueItem) (cur : Option Nat) (proc : Bool) : Prop :=
  (items.map QueueItem.id).Nodup ∧
  genCountL items ≤ 1 ∧
  (proc = false → genCountL items = 0) ∧
  (cur = none → genCountL items = 0) ∧
  (∀ it ∈ items, it.status = QueueItemStatus.generating → cur = some it.id)

/-- The invariant at the orchestrator level. -/
def OrchInv (s : OrchState) : Prop :=
  InvQ s.queue.items s.queue.currentItemId s.isProcessing

theorem invQ_update_status_preserving {items : List QueueItem} {cur : Option Nat}
    {proc : Bool} {id : Nat} {g : QueueItem → QueueItem}
    (hgid : ∀ it, (g it).id = it.id) (hgst : ∀ it, (g it).status = it.status)
    (h : InvQ items cur proc) : InvQ (updateById id g items) cur proc := by
  obtain ⟨hnd, hle, hproc, hcur, hown⟩ := h
  refine ⟨?_, ?_, ?_, ?_, ?_⟩
  · rw [updateById_map_id]
    exacts [hnd, hgid]
  · rw [genCountL_updateById_eq hgst]
    exact hle
  · intro hp
    rw [genCountL_updateById_eq hgst]
    exact hproc hp
  · intro hc
    rw [genCountL_updateById_eq hgst]
    exact hcur hc
  · intro it' hmem hgen
    rcases updateById_gen_source hmem hgen hgid (fun it hh => (hgst it) ▸ hh) with
      ⟨it0, hm0, hid0, hst0⟩
    rw [← hid0]
    exact hown it0 hm0 hst0

theorem invQ_update_settle {items : List QueueItem} {cur : Option Nat}
    {proc : Bool} {id : Nat} {g : QueueItem → QueueItem}
    (hgid : ∀ it, (g it).id = it.id)
    (hgst : ∀ it, (g it).status ≠ QueueItemStatus.generating)
    (hall : ∀ it ∈ items, it.status = QueueItemStatus.generating → it.id = id)
    (h : InvQ items cur proc) : InvQ (updateById id g items) none proc := by
  obtain ⟨hnd, hle, hproc, hcur, hown⟩ := h
  have hz : genCountL (updateById id g items) = 0 :=
    genCountL_updateById_zero hgst items hall
  refine ⟨?_, ?_, ?_, ?_, ?_⟩
  · rw [updateById_map_id]
    exacts [hnd, hgid]
  · omega
  · intro _
    exact hz
  · intro _
    exact hz
  · intro it' hmem hgen
    exact absurd hgen ((genCountL_zero_iff _).mp hz it' hmem)

theorem OrchStep_inv {s s' : OrchState} (hinv : OrchInv s) (hstep : OrchStep s s') :
    OrchInv s' := by
  obtain ⟨hnd, hle, hproc, hcur, hown⟩ := hinv
  cases hstep with
  | enqueue data id now hfresh =>
    refine ⟨?_, ?_, ?_, ?_, ?_⟩
    · show ((addItem data id now s.queue).items.map QueueItem.id).Nodup
      rw [addItem_map_id, List.nodup_append]
      refine ⟨hnd, List.nodup_singleton id, ?_⟩
      intro a ha hb
      rw [List.mem_singleton.mp hb] at ha
      exact hfresh ha
    · show genCountL (addItem data id now s.queue).items ≤ 1
      rw [genCountL_addItem]
      exact hle
    · intro hp
      show genCountL (addItem data id now s.queue).items = 0
      rw [genCountL_addItem]
      exact hproc hp
    · intro hc
      show genCountL (addItem data id now s.queue).items = 0
      rw [genCountL_addItem]
      exact hcur hc
    · intro it' hmem hgen
      simp only [addItem, List.mem_append, List.mem_singleton] at hmem
      rcases hmem with h | h
      · exact hown it' h hgen
      · rw [h] at hgen
        exact absurd hgen (by simp)
  | pickup item now hguard hnext =>
    have hz := hproc hguard
    refine ⟨?_, ?_, ?_, ?_, ?_⟩
    · simp only [startProcessing]
      rw [updateById_map_id]
      exacts [hnd, fun it => rfl]
    · simp only [startProcessing]
      exact genCountL_pickup _ hnd hz
    · intro hp
      simp at hp
    · intro hc
      simp [startProcessing] at hc
    · intro it' hmem hgen
      simp only [startProcessing] at hmem ⊢
      rcases mem_updateById hmem with ⟨it0, hm0, heq⟩
      by_cases hid : it0.id = item.id
      · rw [if_pos hid] at heq
        rw [heq]
        simp [hid]
      · rw [if_neg hid] at heq
        rw [heq] at hgen
        exact absurd hgen ((genCountL_zero_iff _).mp hz it0 hm0)
  | cbProgress id p m =>
    exact invQ_update_status_preserving (fun _ => rfl) (fun _ => rfl)
      (invQ_update_status_preserving (fun _ => rfl) (fun _ => rfl)
        ⟨hnd, hle, hproc, hcur, hown⟩)
  | cbThought id t =>
    exact invQ_update_status_preserving (fun _ => rfl) (fun _ => rfl)
      ⟨hnd, hle, hproc, hcur, hown⟩
  | cbInterim id d =>
    exact invQ_update_status_preserving (fun _ => rfl) (fun _ => rfl)
      ⟨hnd, hle, hproc, hcur, hown⟩
  | cbFinal id elapsed now d hcur2 =>
    refine invQ_update_settle (fun _ => rfl) (fun _ => by simp) ?_
      ⟨hnd, hle, hproc, hcur, hown⟩
    intro it hmem hgen
    have := hown it hmem hgen
    rw [hcur2] at this
    exact (Option.some.injEq _ _ ▸ this).symm
  | cbError id now m hcur2 =>
    refine invQ_update_settle (fun _ => rfl) (fun _ => by simp) ?_
      ⟨hnd, hle, hproc, hcur, hown⟩
    intro it hmem hgen
    have := hown it hmem hgen
    rw [hcur2] at this
    exact (Option.some.injEq _ _ ▸ this).symm
  | cbFinalLate id elapsed now d hcur2 =>
    have hz := hcur hcur2
    refine invQ_update_settle (fun _ => rfl) (fun _ => by simp) ?_
      ⟨hnd, hle, hproc, hcur, hown⟩
    intro it hmem hgen
    exact absurd hgen ((genCountL_zero_iff _).mp hz it hmem)
  | cbErrorLate id now m hcur2 =>
    have hz := hcur hcur2
    refine invQ_update_settle (fun _ => rfl) (fun _ => by simp) ?_
      ⟨hnd, hle, hproc, hcur, hown⟩
    intro it hmem hgen
    exact absurd hgen ((genCountL_zero_iff _).mp hz it hmem)
  | finish hcur2 =>
    have hz := hcur hcur2
    exact ⟨hnd, hle, fun _ => hz, fun _ => hz, hown⟩
  | remove id =>
    refine ⟨?_, ?_, ?_, ?_, ?_⟩
    · exact hnd.sublist ((List.filter_sublist _).map QueueItem.id)
    · exact le_trans (genCountL_filter_le _ _) hle
    · intro hp
      have h0 := hproc hp
      have hf := genCountL_filter_le (fun item => decide (item.id ≠ id)) s.queue.items
      show genCountL (s.queue.items.filter (fun item => item.id ≠ id)) = 0
      omega
    · intro hc
      simp only [removeItem] at hc
      by_cases hcid : s.queue.currentItemId = some id
      · show genCountL (s.queue.items.filter (fun item => item.id ≠ id)) = 0
        rw [genCountL_zero_iff]
        intro it hit hgen
        rcases List.mem_filter.mp hit with ⟨hmem, hne⟩
        have := hown it hmem hgen
        rw [hcid] at this
        have : id = it.id := by simpa using this
        simp [← this] at hne
      · rw [if_neg hcid] at hc
        have h0 := hcur hc
        have hf := genCountL_filter_le (fun item => decide (item.id ≠ id)) s.queue.items
        show genCountL (s.queue.items.filter (fun item => item.id ≠ id)) = 0
        omega
    · intro it' hmem hgen
      rcases List.mem_filter.mp hmem with ⟨hmem0, hne⟩
      have hc := hown it' hmem0 hgen
      simp only [removeItem]
      rw [if_neg]
      · exact hc
      · intro heq
        rw [heq] at hc
        have : id = it'.id := by simpa using hc
        simp [← this] at hne
  | clearDone =>
    refine ⟨?_, ?_, ?_, ?_, ?_⟩
    · exact hnd.sublist ((List.filter_sublist _).map QueueItem.id)
    · exact le_trans (genCountL_filter_le _ _) hle
    · intro hp
      have h0 := hproc hp
      have hf := genCountL_filter_le
        (fun item => decide (item.status ≠ QueueItemStatus.completed ∧
          item.status ≠ QueueItemStatus.error)) s.queue.items
      show genCountL (s.queue.items.filter (fun item =>
        item.status ≠ QueueItemStatus.completed ∧
        item.status ≠ QueueItemStatus.error)) = 0
      omega
    · intro hc
      have h0 := hcur hc
      have hf := genCountL_filter_le
        (fun item => decide (item.status ≠ QueueItemStatus.completed ∧
          item.status ≠ QueueItemStatus.error)) s.queue.items
      show genCountL (s.queue.items.filter (fun item =>
        item.status ≠ QueueItemStatus.completed ∧
        item.status ≠ QueueItemStatus.error)) = 0
      omega
    · intro it' hmem hgen
      exact hown it' (List.mem_filter.mp hmem).1 hgen
  | reset =>
    exact ⟨by simp [clearAll], by simp [clearAll, genCountL], fun _ => by simp [clearAll, genCountL],
      fun _ => by simp [clearAll, genCountL], fun it hmem => by simp [clearAll] at hmem⟩

/-- **C1.**  In every orchestrator state reachable from startup, at
most one queue item has status `generating`: `processQueue` starts
processing only when the `isProcessingRef` guard is down and the guard
is released (onComplete) only once the active item has settled — the
second conjunct checks that every `onComplete` the rich-streaming
adapter fires is preceded by `onFinalImage` or `onError`. -/
theorem single_flight_generating :
    (∀ s : OrchState, OrchReach s → generatingCount s.queue ≤ 1) ∧
    (∀ (decode : List Char → List GenerationPart) (env : Nat → FetchOutcome),
        settledBefore false (googleRun decode env).trace = true) := by
  constructor
  · intro s hreach
    have hinv : OrchInv s := by
      induction hreach with
      | refl =>
        exact ⟨by simp [initOrch], by simp [initOrch, genCountL],
          fun _ => by simp [initOrch, genCountL], fun _ => by simp [initOrch, genCountL],
          fun it hmem => by simp [initOrch] at hmem⟩
      | tail hsteps hstep ih => exact OrchStep_inv ih hstep
    exact hinv.2.1
  · exact googleRun_settles_before_complete

/-- The request data of the witness's enqueued item. -/
def itemDataW : ItemData :=
  { prompt := "a cat", referenceImages := none, resolution := "1K", aspectRatio := "1:1",
    model := "gemini-image", provider := "google" }

/-- The witness item as `addItem itemDataW 1 0` creates it. -/
def itemW : QueueItem :=
  { id := 1, prompt := "a cat", referenceImages := none, resolution := "1K",
    aspectRatio := "1:1", model := "gemini-image", provider := "google",
    status := QueueItemStatus.pending, createdAt := 0 }

/-- The witness state after one enqueue. -/
def orchW1 : OrchState :=
  { queue := addItem itemDataW 1 0 { items := [], currentItemId := none }
    isProcessing := false }

/-- The witness state after the orchestrator picks the item up. -/
def orchW2 : OrchState :=
  { queue := startProcessing itemW.id 7 orchW1.queue, isProcessing := true }

/-- Witness for C1: a state reached by an enqueue followed by a pickup
(one item actively `generating`) satisfies the bound. -/
theorem single_flight_generating_witness : generatingCount orchW2.queue ≤ 1 :=
  single_flight_generating.1 orchW2
    (Relation.ReflTransGen.tail
      (Relation.ReflTransGen.tail Relation.ReflTransGen.refl
        (OrchStep.enqueue initOrch itemDataW 1 0 (by simp [initOrch])))
      (OrchStep.pickup orchW1 itemW 7 rfl (by decide)))
